import Mathlib

/-!
# Layer-execution kernels of the GNA backend (`gna_plugin/backend/dnn.cpp`)

A shallow embedding of the kernels of `dnn.cpp`, of the structural
compatibility check, of the score error statistics and of the stable softmax,
with the properties the specification states about them.

Modelling conventions.

* A buffer reached through a `float *` is a total map from element offsets to
  values, `Buf α`.  The element type `α` is any semiring: the theorems are
  about exact arithmetic, not about rounding.  The buffers of one descriptor
  are separate maps, so they do not alias.
* Offsets are 32-bit: an index expression such as `i * ldc + j`, which the
  source evaluates in `uint32_t` arithmetic, is reduced modulo `2 ^ 32`
  (`u32`).  Where the source multiplies two `int` operands before adding a
  `uint32_t` (`l * ldc + j` in subset mode) the signed overflow, undefined in
  C++, is taken to wrap, so that the offset is again the value modulo
  `2 ^ 32`.  The numeric primitives, which are outside the source, keep exact
  offsets.
* A dimension local such as `int m = component->num_rows_out` that is only
  compared with, or multiplied by, `uint32_t` counters carries the value of
  the field: the C++ conversions take the `int` back to the unsigned value it
  came from.  `ApplyCopy` spells these conversions out (`toInt32`,
  `toUInt32`), and so does the index `int i = list[l]` of subset mode.
* `THROW_GNA_EXCEPTION` ends the call.  A kernel returns an `Outcome`: the
  error kind if it threw, the contents of the output buffer when the call
  ended, and the numeric primitives it invoked, in order.
* The score error statistics are over any type with an addition and an
  order, with counts in the naturals: the laws of the merge are proved over
  linearly ordered rings (exact arithmetic), and `Binary32Int` gives the
  rounded addition of `float` on integer values.  `SoftmaxGoogle` is over any linearly ordered field and
  takes the library functions `exp` and `log` as parameters; the theorems
  that need their properties are stated over the reals with `Real.exp` and
  `Real.log`.
-/

namespace GNAPluginNS.backend

/-! ## Buffers and loops -/

/-- Contents of a buffer of elements, addressed by element offset from its base pointer. -/
abbrev Buf (α : Type) := Nat → α

/-- The store `C[p] = v`. -/
def Buf.set {α : Type} (C : Buf α) (p : Nat) (v : α) : Buf α :=
  fun q => if q = p then v else C q

/-- The loop `for (i = 0; i < n; i++) s = body(i, s)`, started in state `s`. -/
def forLoop {σ : Type} (body : Nat → σ → σ) : Nat → σ → σ
  | 0, s => s
  | n + 1, s => body n (forLoop body n s)

/-- The accumulation `sum = 0; for (k = 0; k < K; k++) sum += f(k)`. -/
def sumTo {α : Type} [Semiring α] (K : Nat) (f : Nat → α) : α :=
  forLoop (fun k s => s + f k) K 0

/-! ## Machine integers -/

/-- Value of a signed 32-bit variable initialised from the unsigned 32-bit value `x`. -/
def toInt32 (x : Nat) : Int :=
  if x % 4294967296 < 2147483648 then ((x % 4294967296 : Nat) : Int)
  else ((x % 4294967296 : Nat) : Int) - 4294967296

/-- Value of a signed 32-bit operand after its conversion to `uint32_t`, which the usual
arithmetic conversions apply when the other operand is a `uint32_t`. -/
def toUInt32 (z : Int) : Nat := (z % 4294967296).toNat

/-- Value of an expression of type `uint32_t` whose exact value is `x`. -/
def u32 (x : Nat) : Nat := x % 4294967296

/-- The read `C[i]` with an index `i` of type `int`.  For `0 <= i` it is the cell `i`.  A
negative `i` addresses memory below the buffer, which C++ leaves undefined and
a `Buf` does not hold: the model then reads the cell of the index converted
to `uint32_t`, and no theorem relies on that value. -/
def Buf.atInt {α : Type} (C : Buf α) (i : Int) : α := C (toUInt32 i)

/-! ## Errors and outcomes -/

/-- Error kinds of the specification (section 7); every `THROW_GNA_EXCEPTION` of the
source is one of them. -/
inductive GnaError where
  | InvalidLayout
  | MissingFeedback
  | CopyOutOfBounds
  | UnsupportedNumericType
  deriving DecidableEq, Repr

/-- Names of the external numeric primitives the kernels call. -/
inductive Primitive where
  | cblas_sgemm1
  | cblas_sgemm_subset
  | cblas_ssbmv1
  | sgemv_split
  | CNNFilter32
  | PwlApply32
  | CNNMaxPool
  deriving DecidableEq, Repr

/-- What a kernel call leaves behind: `error` is the exception it threw, if any;
`output` is the output buffer when the call ended; `calls` lists the numeric
primitives that were invoked, in order. -/
structure Outcome (α : Type) where
  error : Option GnaError
  output : Buf α
  calls : List Primitive

/-! ## Descriptors -/

/-- Modelled from the spec: the operation kinds of a component (section 3); the
enumeration `intel_dnn_operation_t` is declared outside `dnn.cpp`, which only
compares its values. -/
inductive intel_dnn_operation_t where
  | Affine
  | Diagonal
  | Recurrent
  | Convolution1D
  | PiecewiseLinear
  | MaxPool
  | Transpose
  | Copy
  deriving DecidableEq, Repr

/-- Modelled from the spec: the numeric representation passed to the piecewise-linear and
pooling kernels; `dnn.cpp` names `kDnnFloat` only, `kDnnInt` stands for the
representations other than single-precision float. -/
inductive intel_dnn_number_type_t where
  | kDnnFloat
  | kDnnInt
  deriving DecidableEq, Repr

/-- Payload `op.affine`: the weight and bias buffers (used by Affine and Diagonal). -/
structure intel_affine_t (α : Type) where
  ptr_weights : Buf α
  ptr_biases : Buf α

/-- Payload `op.recurrent`: weight and bias buffers and the stored feedback pointer,
`none` for `nullptr`. -/
structure intel_recurrent_t (α : Type) where
  ptr_weights : Buf α
  ptr_biases : Buf α
  ptr_feedbacks : Option (Buf α)

/-- Payload `op.copy`: the extent of the rectangle to copy, two `uint32_t` fields. -/
structure intel_copy_t where
  num_copy_rows : Nat
  num_copy_columns : Nat

/-- The payload `op` of a component, with the members `dnn.cpp` reads. -/
structure intel_op_t (α : Type) where
  affine : intel_affine_t α
  recurrent : intel_recurrent_t α
  copy : intel_copy_t

/-- Modelled from the spec: the component descriptor (section 3), with the fields of
`intel_dnn_component_t` that `dnn.cpp` reads; the declaration itself is in a
header outside the source.  The shape fields and the byte width are `uint32_t`
values; `ptr_outputs` is the output buffer as the call finds it. -/
structure intel_dnn_component_t (α : Type) where
  num_rows_in : Nat
  num_columns_in : Nat
  num_rows_out : Nat
  num_columns_out : Nat
  num_bytes_per_input : Nat
  operation : intel_dnn_operation_t
  op : intel_op_t α
  ptr_inputs : Buf α
  ptr_outputs : Buf α

/-- The shape fields and the copy extent are values of the type `uint32_t`. -/
def intel_dnn_component_t.IsUInt32 {α : Type} (c : intel_dnn_component_t α) : Prop :=
  c.num_rows_in < 4294967296 ∧ c.num_columns_in < 4294967296 ∧
  c.num_rows_out < 4294967296 ∧ c.num_columns_out < 4294967296 ∧
  c.op.copy.num_copy_rows < 4294967296 ∧ c.op.copy.num_copy_columns < 4294967296

instance {α : Type} (c : intel_dnn_component_t α) : Decidable c.IsUInt32 := by
  unfold intel_dnn_component_t.IsUInt32
  infer_instance

/-- Outcome of a call that throws `e` before it has written to the output buffer or
called a primitive. -/
def throwBefore {α : Type} (component : intel_dnn_component_t α) (e : GnaError) : Outcome α :=
  { error := some e, output := component.ptr_outputs, calls := [] }

/-! ## Numeric primitives -/

section primitives
variable {α : Type} [Semiring α]

/-- Modelled from the spec: the dense matmul primitive `cblas_sgemm1` of `floatmath`, which is
outside the source, in the row-major no-transpose case the kernels request:
`C <- alpha * A * B + beta * C` with `A` of shape `M x K` (stride `lda`), `B`
of shape `K x N` (stride `ldb`) and `C` of shape `M x N` (stride `ldc`); it
accumulates on the preseeded output. -/
def cblas_sgemm1 (M N K : Nat) (alpha : α) (A : Buf α) (lda : Nat) (B : Buf α) (ldb : Nat)
    (beta : α) (C : Buf α) (ldc : Nat) : Buf α :=
  forLoop (fun i C =>
    forLoop (fun j C =>
      C.set (i * ldc + j)
        (alpha * sumTo K (fun k => A (i * lda + k) * B (k * ldb + j)) + beta * C (i * ldc + j)))
      N C) M C

/-- Modelled from the spec: the subset matmul primitive `cblas_sgemm_subset` of `floatmath`,
which is outside the source: for each position `l` of the list it takes the
weight row of the global row `list[l]` and accumulates on row `l` of the
preseeded output. -/
def cblas_sgemm_subset (_M N K : Nat) (alpha : α) (A : Buf α) (lda : Nat) (B : Buf α)
    (ldb : Nat) (beta : α) (C : Buf α) (ldc : Nat) (list : Nat → Nat) (listsize : Nat) :
    Buf α :=
  forLoop (fun l C =>
    let i := list l
    forLoop (fun j C =>
      C.set (l * ldc + j)
        (alpha * sumTo K (fun k => A (i * lda + k) * B (k * ldb + j)) + beta * C (l * ldc + j)))
      N C) listsize C

/-- Modelled from the spec: the banded primitive `cblas_ssbmv1` of `floatmath`, which is
outside the source, for bandwidth `K = 0`:
`y[t] <- alpha * A[t] * x[t] + beta * y[t]` for `t < N`, with strides `lda`,
`incX`, `incY`.  The vectors `x` and `y` start at the offsets `X0` and `Y0`
of their buffers (the pointers `Bcol` and `Ccol` of the caller); the whole
buffer of `y` is returned. -/
def cblas_ssbmv1 (N _K : Nat) (alpha : α) (A : Buf α) (lda : Nat) (X : Buf α) (X0 : Nat)
    (incX : Nat) (beta : α) (Y : Buf α) (Y0 : Nat) (incY : Nat) : Buf α :=
  forLoop (fun t Y =>
    Y.set (Y0 + t * incY)
      (alpha * A (t * lda) * X (X0 + t * incX) + beta * Y (Y0 + t * incY))) N Y

/-- Modelled from the spec: the primitive `sgemv_split` of `floatmath`, which is outside the
source: an affine transform of the virtual `(K1 + K2)`-wide vector made of the
`K1` values of `A1` followed by the `K2` values of `A2`, with the
`N x (K1 + K2)` weights `X` and the biases `B`, producing `N` values.
`A1` starts at offset `A10` of its buffer and the result is stored from
offset `C0` of the buffer `C`, which is returned whole. -/
def sgemv_split (N K1 K2 : Nat) (A1 : Buf α) (A10 : Nat) (A2 : Buf α) (X B : Buf α)
    (C : Buf α) (C0 : Nat) : Buf α :=
  let num_columns := K1 + K2
  forLoop (fun i C =>
    let sum := B i
    let sum := forLoop (fun j sum => sum + A1 (A10 + j) * X (i * num_columns + j)) K1 sum
    let sum := forLoop (fun j sum => sum + A2 j * X (i * num_columns + (K1 + j))) K2 sum
    C.set (C0 + i) sum) N C

end primitives

/-! ## Kernels -/

section kernels
variable {α : Type} [Semiring α]

/-- Kernel `ApplyAffineTransform(component, list, listsize)`; `list = none` is the null list. -/
def ApplyAffineTransform (component : intel_dnn_component_t α) (list : Option (Nat → Nat))
    (listsize : Nat) : Outcome α :=
  if 4 ≠ component.num_bytes_per_input then throwBefore component GnaError.InvalidLayout
  else
    let transform := component.op.affine
    let m := component.num_rows_out
    let n := component.num_columns_in
    let k := component.num_rows_in
    let lda := component.num_rows_in
    let ldb := component.num_columns_in
    let ldc := component.num_columns_out
    let A := transform.ptr_weights
    let B := component.ptr_inputs
    let C := component.ptr_outputs
    let bias := transform.ptr_biases
    match list with
    | none =>
      let C := forLoop (fun i C =>
        forLoop (fun j C => C.set (u32 (i * ldc + j)) (bias (u32 i))) n C) m C
      { error := none
        output := cblas_sgemm1 m n k 1 A lda B ldb 1 C ldc
        calls := [Primitive.cblas_sgemm1] }
    | some list =>
      let C := forLoop (fun l C =>
        let i : Int := toInt32 (list l)
        forLoop (fun j C => C.set (u32 (l * ldc + j)) (bias.atInt i)) n C) listsize C
      { error := none
        output := cblas_sgemm_subset m n k 1 A lda B ldb 1 C ldc list listsize
        calls := [Primitive.cblas_sgemm_subset] }

/-- Kernel `ApplyDiagonalTransform(component)`. -/
def ApplyDiagonalTransform (component : intel_dnn_component_t α) : Outcome α :=
  if 4 ≠ component.num_bytes_per_input then throwBefore component GnaError.InvalidLayout
  else
    let transform := component.op.affine
    let m := component.num_rows_out
    let n := component.num_columns_in
    let ldb := component.num_columns_in
    let ldc := component.num_columns_out
    let A := transform.ptr_weights
    let B := component.ptr_inputs
    let C := component.ptr_outputs
    let bias := transform.ptr_biases
    let C := forLoop (fun i C =>
      forLoop (fun j C => C.set (u32 (i * ldc + j)) (bias (u32 i))) n C) m C
    let s := forLoop (fun j (s : Buf α × List Primitive) =>
      let Bcol := u32 (j * ldb)
      let Ccol := u32 (j * ldc)
      (cblas_ssbmv1 m 0 1 A 1 B Bcol 1 1 s.1 Ccol 1, s.2 ++ [Primitive.cblas_ssbmv1]))
      n (C, [])
    { error := none, output := s.1, calls := s.2 }

/-- The buffer a `float *` addresses.  C++ does not define a read through `nullptr`; the
embedding lets it read zeros. -/
def derefFloat (p : Option (Buf α)) : Buf α :=
  match p with
  | some b => b
  | none => fun _ => 0

/-- Kernel `ApplyRecurrentTransform(component, row, ptr_feedbacks)`; the argument
`ptr_feedbacks` is `none` for `nullptr`. -/
def ApplyRecurrentTransform (component : intel_dnn_component_t α) (row : Nat)
    (ptr_feedbacks : Option (Buf α)) : Outcome α :=
  if 4 ≠ component.num_bytes_per_input then throwBefore component GnaError.InvalidLayout
  else
    let transform := component.op.recurrent
    let k1 := component.num_columns_in
    let k2 := component.num_columns_out
    let n := k2
    if component.op.recurrent.ptr_feedbacks.isNone then
      throwBefore component GnaError.MissingFeedback
    else
      let A1 := u32 (row * component.num_columns_in)
      let A2 := derefFloat ptr_feedbacks
      let X := transform.ptr_weights
      let B := transform.ptr_biases
      let C := u32 (row * component.num_columns_out)
      { error := none
        output := sgemv_split n k1 k2 component.ptr_inputs A1 A2 X B component.ptr_outputs C
        calls := [Primitive.sgemv_split] }

/-- Kernel `ApplyConvolutional1DTransform(component)`.  The external primitive
`CNNFilter32` is a parameter: it maps the descriptor to the output buffer it
leaves. -/
def ApplyConvolutional1DTransform (CNNFilter32 : intel_dnn_component_t α → Buf α)
    (component : intel_dnn_component_t α) : Outcome α :=
  if 4 ≠ component.num_bytes_per_input then throwBefore component GnaError.InvalidLayout
  else
    { error := none, output := CNNFilter32 component, calls := [Primitive.CNNFilter32] }

/-- Kernel `ApplyPiecewiseLinearTransform(component, number_type, listsize)`, the first entry
point.  The external primitive `PwlApply32(component, listsize)` is a
parameter. -/
def ApplyPiecewiseLinearTransform (PwlApply32 : intel_dnn_component_t α → Nat → Buf α)
    (component : intel_dnn_component_t α) (number_type : intel_dnn_number_type_t)
    (listsize : Nat) : Outcome α :=
  if intel_dnn_number_type_t.kDnnFloat ≠ number_type then
    throwBefore component GnaError.UnsupportedNumericType
  else
    { error := none, output := PwlApply32 component listsize, calls := [Primitive.PwlApply32] }

/-- Kernel `ApplyPiecewiseLinearTransform(component, number_type, listsize, num_row)`, the
second entry point.  The external primitive
`PwlApply32(component, num_row_start, num_row_end, num_col_start, num_col_end)`
is a parameter; `listsize - 1` is a `uint32_t` subtraction. -/
def ApplyPiecewiseLinearTransformRow
    (PwlApply32 : intel_dnn_component_t α → Nat → Nat → Nat → Nat → Buf α)
    (component : intel_dnn_component_t α) (number_type : intel_dnn_number_type_t)
    (listsize : Nat) (num_row : Nat) : Outcome α :=
  if intel_dnn_number_type_t.kDnnFloat ≠ number_type then
    throwBefore component GnaError.UnsupportedNumericType
  else
    { error := none
      output := PwlApply32 component num_row num_row 0 ((listsize + 4294967296 - 1) % 4294967296)
      calls := [Primitive.PwlApply32] }

/-- Kernel `ApplyMaxPoolTransform(component, number_type)`.  The external primitive
`CNNMaxPool` is a parameter. -/
def ApplyMaxPoolTransform
    (CNNMaxPool : intel_dnn_component_t α → intel_dnn_number_type_t → Buf α)
    (component : intel_dnn_component_t α) (number_type : intel_dnn_number_type_t) :
    Outcome α :=
  if 4 ≠ component.num_bytes_per_input then throwBefore component GnaError.InvalidLayout
  else
    { error := none, output := CNNMaxPool component number_type, calls := [Primitive.CNNMaxPool] }

/-- Kernel `ApplyTranspose(component)`. -/
def ApplyTranspose (component : intel_dnn_component_t α) : Outcome α :=
  if 4 ≠ component.num_bytes_per_input then throwBefore component GnaError.InvalidLayout
  else
    let m := component.num_rows_in
    let n := component.num_columns_in
    let lda := component.num_columns_in
    let ldb := component.num_columns_out
    let A := component.ptr_inputs
    let B := component.ptr_outputs
    { error := none
      output := forLoop (fun row B =>
        forLoop (fun col B =>
          B.set (u32 (col * ldb + row)) (A (u32 (row * lda + col)))) n B) m B
      calls := [] }

/-- Kernel `ApplyCopy(component)`.  The locals `m`, `n`, `lda`, `ldb` are `int32_t`; where
the source compares them with, or multiplies them by, a `uint32_t` they are
converted to `uint32_t`. -/
def ApplyCopy (component : intel_dnn_component_t α) : Outcome α :=
  if 4 ≠ component.num_bytes_per_input then throwBefore component GnaError.InvalidLayout
  else
    let src := component.ptr_inputs
    let dst := component.ptr_outputs
    let m : Int := toInt32 component.op.copy.num_copy_rows
    let n : Int := toInt32 component.op.copy.num_copy_columns
    let lda : Int := toInt32 component.num_columns_in
    let ldb : Int := toInt32 component.num_columns_out
    if toUInt32 m > component.num_rows_in then
      throwBefore component GnaError.CopyOutOfBounds
    else
      let A := src
      let B := dst
      { error := none
        output := forLoop (fun row B =>
          forLoop (fun col B =>
            B.set (u32 (row * toUInt32 ldb + col)) (A (u32 (row * toUInt32 lda + col))))
            (toUInt32 n) B) (toUInt32 m) B
        calls := [] }

end kernels

/-! ## Compatibility of two models -/

/-- Modelled from the spec: a compiled model `AMIntelDNN`, declared outside the source: its
component count `num_components()` and its components by index.  C++ does not
define what `component[i]` reads at or past the count, so `component` is total
and unconstrained there. -/
structure AMIntelDNN (α : Type) where
  num_components : Nat
  component : Nat → intel_dnn_component_t α

/-- Function `isCompatibleDnn(dnn1, dnn2)`. -/
def isCompatibleDnn {α : Type} (dnn1 dnn2 : AMIntelDNN α) : Bool :=
  let isCompatible := true
  let isCompatible := if dnn1.num_components ≠ dnn2.num_components then false else isCompatible
  forLoop (fun i isCompatible =>
    let isCompatible :=
      if (dnn1.component i).num_rows_in ≠ (dnn2.component i).num_rows_in then false
      else isCompatible
    let isCompatible :=
      if (dnn1.component i).num_columns_in ≠ (dnn2.component i).num_columns_in then false
      else isCompatible
    let isCompatible :=
      if (dnn1.component i).num_rows_out ≠ (dnn2.component i).num_rows_out then false
      else isCompatible
    let isCompatible :=
      if (dnn1.component i).num_columns_out ≠ (dnn2.component i).num_columns_out then false
      else isCompatible
    let isCompatible :=
      if (dnn1.component i).operation ≠ (dnn2.component i).operation then false
      else isCompatible
    isCompatible) dnn1.num_components isCompatible

/-- The loop of `isCompatibleDnn(dnn1, dnn2)` with a record of the accesses to the second
model: the first component is the flag `isCompatible` as `isCompatibleDnn`
computes it, the second lists, in order, the indices `i` at which
`dnn2.component[i]` is evaluated, once for each of the five comparisons. -/
def isCompatibleDnnTraced {α : Type} (dnn1 dnn2 : AMIntelDNN α) : Bool × List Nat :=
  let isCompatible := true
  let isCompatible := if dnn1.num_components ≠ dnn2.num_components then false else isCompatible
  forLoop (fun i (s : Bool × List Nat) =>
    let s : Bool × List Nat :=
      (if (dnn1.component i).num_rows_in ≠ (dnn2.component i).num_rows_in then false else s.1,
        s.2 ++ [i])
    let s : Bool × List Nat :=
      (if (dnn1.component i).num_columns_in ≠ (dnn2.component i).num_columns_in then false
        else s.1, s.2 ++ [i])
    let s : Bool × List Nat :=
      (if (dnn1.component i).num_rows_out ≠ (dnn2.component i).num_rows_out then false
        else s.1, s.2 ++ [i])
    let s : Bool × List Nat :=
      (if (dnn1.component i).num_columns_out ≠ (dnn2.component i).num_columns_out then false
        else s.1, s.2 ++ [i])
    let s : Bool × List Nat :=
      (if (dnn1.component i).operation ≠ (dnn2.component i).operation then false else s.1,
        s.2 ++ [i])
    s) dnn1.num_components (isCompatible, [])

/-! ## Score error statistics -/

/-- Modelled from the spec: the accumulator `intel_score_error_t` (section 3), declared
outside the source, with the fields `dnn.cpp` assigns: the two counts are
integers, the sums and maxima are values of a type `α` with an addition and
an order, either an ordered ring (exact arithmetic) or `Binary32Int`
(the rounded addition of `float`). -/
structure intel_score_error_t (α : Type) where
  num_scores : Nat
  num_errors : Nat
  max_error : α
  sum_error : α
  sum_squared_error : α
  max_rel_error : α
  sum_rel_error : α
  sum_squared_rel_error : α

section score_error
variable {α : Type}

/-- Function `ClearScoreError(error)`: the accumulator `*error` after the call. -/
def ClearScoreError [Zero α] (error : intel_score_error_t α) : intel_score_error_t α :=
  let error := { error with num_scores := 0 }
  let error := { error with num_errors := 0 }
  let error := { error with max_error := 0 }
  let error := { error with sum_error := 0 }
  let error := { error with sum_squared_error := 0 }
  let error := { error with max_rel_error := 0 }
  let error := { error with sum_rel_error := 0 }
  let error := { error with sum_squared_rel_error := 0 }
  error

/-- Function `UpdateScoreError(error, total_error)`: the accumulator `*total_error` after the
call, which merges `*error` into it. -/
def UpdateScoreError [Add α] [LT α] [DecidableRel (fun a b : α => a < b)]
    (error total_error : intel_score_error_t α) : intel_score_error_t α :=
  let total_error := { total_error with num_errors := total_error.num_errors + error.num_errors }
  let total_error := { total_error with num_scores := total_error.num_scores + error.num_scores }
  let total_error := { total_error with sum_error := total_error.sum_error + error.sum_error }
  let total_error :=
    { total_error with
      sum_squared_error := total_error.sum_squared_error + error.sum_squared_error }
  let total_error :=
    if error.max_error > total_error.max_error then
      { total_error with max_error := error.max_error }
    else total_error
  let total_error :=
    { total_error with sum_rel_error := total_error.sum_rel_error + error.sum_rel_error }
  let total_error :=
    { total_error with
      sum_squared_rel_error := total_error.sum_squared_rel_error + error.sum_squared_rel_error }
  let total_error :=
    if error.max_rel_error > total_error.max_rel_error then
      { total_error with max_rel_error := error.max_rel_error }
    else total_error
  total_error

end score_error

/-- Number of bits of `n`: the least `b` with `n < 2 ^ b`. -/
def bitLength (n : Nat) : Nat := go n n
where
  go : Nat → Nat → Nat
    | 0, _ => 0
    | fuel + 1, n => if n = 0 then 0 else go fuel (n / 2) + 1

/-- Rounding of the integer `z` to binary32, the format of `float`: `z` is kept when it has
at most 24 significant bits, and is otherwise rounded to 24 significant bits,
to nearest with ties to the even significand.  For magnitudes below `2 ^ 127`,
where the result is finite. -/
def roundBinary32 (z : Int) : Int :=
  let a := z.natAbs
  let e := bitLength a - 24
  let q := a / 2 ^ e
  let r := a % 2 ^ e
  let q := if 2 * r > 2 ^ e ∨ (2 * r = 2 ^ e ∧ q % 2 = 1) then q + 1 else q
  Int.sign z * ((q * 2 ^ e : Nat) : Int)

/-- The `float` values that are integers, with the addition of `float`: the exact sum
rounded by `roundBinary32`. -/
structure Binary32Int where
  val : Int
  deriving DecidableEq

instance : Add Binary32Int := ⟨fun a b => ⟨roundBinary32 (a.val + b.val)⟩⟩

instance : LT Binary32Int := ⟨fun a b => a.val < b.val⟩

instance : DecidableRel (fun a b : Binary32Int => a < b) :=
  fun a b => inferInstanceAs (Decidable (a.val < b.val))

/-- An accumulator over `float` with the absolute error sum `s` and zeros elsewhere. -/
def exFloatScore (s : Int) : intel_score_error_t Binary32Int :=
  { num_scores := 0, num_errors := 0, max_error := ⟨0⟩, sum_error := ⟨s⟩,
    sum_squared_error := ⟨0⟩, max_rel_error := ⟨0⟩, sum_rel_error := ⟨0⟩,
    sum_squared_rel_error := ⟨0⟩ }

/-! ## Stable softmax -/

/-- What `SoftmaxGoogle` leaves behind: the output vector and whether the warning about
`log(0)` was printed on `stderr`. -/
structure SoftmaxOutcome (α : Type) where
  output : Buf α
  warning : Bool

section softmax
variable {α : Type} [LinearOrderedField α]

/-- The constant `1.0e-20` below which `SoftmaxGoogle` clamps the sum of exponentials. -/
def softmaxFloor : α := 1 / 100000000000000000000

/-- Function `SoftmaxGoogle(ptr_output, ptr_input, num_outputs, num_inputs)`.  The library
functions `exp` and `log` are parameters; `ptr_output` is the output vector as
the call finds it. -/
def SoftmaxGoogle (exp log : α → α) (ptr_output ptr_input : Buf α)
    (num_outputs num_inputs : Nat) : SoftmaxOutcome α :=
  let max_score := ptr_input 0
  let sum : α := 0
  let max_score := forLoop (fun i max_score =>
    if ptr_input i > max_score then ptr_input i else max_score) num_inputs max_score
  let sum := forLoop (fun i sum => sum + exp (ptr_input i - max_score)) num_inputs sum
  let warning := decide (sum < softmaxFloor)
  let sum := if sum < softmaxFloor then softmaxFloor else sum
  let diff := max_score + log sum
  { output := forLoop (fun i ptr_output => ptr_output.set i (ptr_input i - diff))
      num_outputs ptr_output
    warning := warning }

end softmax

/-- The value `M` is the maximum of the first `n` scores: one of them equals `M` and none
exceeds it. -/
def IsMaxScore {α : Type} [LinearOrder α] (scores : Buf α) (n : Nat) (M : α) : Prop :=
  (∃ j < n, scores j = M) ∧ ∀ j < n, scores j ≤ M

/-! ## The recurrent step as an affine transform -/

/-- The virtual `(k1 + k2)`-wide input of the recurrent step, in the words of the
specification: the `k1` values of the input row followed by the `k2` values
of the feedback vector. -/
def concatInputFeedback {α : Type} (input_row feedback : Buf α) (k1 : Nat) : Buf α :=
  fun t => if t < k1 then input_row t else feedback (t - k1)

/-! ## Shapes and concrete inputs -/

/-- The rows of a row-major region do not overlap: `rows` rows of `cols` cells each, laid out
with stride `stride`, occupy pairwise distinct cells. -/
def RowsDisjoint (rows cols stride : Nat) : Prop :=
  ∀ i < rows, ∀ i2 < rows, ∀ j < cols, ∀ j2 < cols,
    i * stride + j = i2 * stride + j2 → i = i2

instance (rows cols stride : Nat) : Decidable (RowsDisjoint rows cols stride) := by
  unfold RowsDisjoint
  infer_instance

/-- The offsets of the first `cols` cells of `rows` rows of stride `stride` fit the type
`uint32_t`. -/
def OffsetsFit (rows cols stride : Nat) : Prop :=
  ∀ i < rows, ∀ j < cols, i * stride + j < 4294967296

instance (rows cols stride : Nat) : Decidable (OffsetsFit rows cols stride) := by
  unfold OffsetsFit
  infer_instance

/-- The offsets of the first `cols` cells of `rows` rows of stride `stride` fit the type
`int`, in which subset mode forms the product `l * ldc`. -/
def OffsetsFitInt (rows cols stride : Nat) : Prop :=
  ∀ i < rows, ∀ j < cols, i * stride + j < 2147483648

instance (rows cols stride : Nat) : Decidable (OffsetsFitInt rows cols stride) := by
  unfold OffsetsFitInt
  infer_instance

/-- Buffer holding the listed values from offset 0 on, and zeros behind them. -/
def Buf.ofList (l : List Int) : Buf Int := fun p => l.getD p 0

/-- A descriptor over the integers with the given shape, byte width and buffers; the
payloads `op.affine` and `op.recurrent` share the weight and bias buffers. -/
def mkComponent (rows_in cols_in rows_out cols_out width : Nat) (weights biases inputs : List Int)
    (copy_rows copy_cols : Nat) (feedbacks : Option (Buf Int)) : intel_dnn_component_t Int :=
  { num_rows_in := rows_in
    num_columns_in := cols_in
    num_rows_out := rows_out
    num_columns_out := cols_out
    num_bytes_per_input := width
    operation := intel_dnn_operation_t.Affine
    op :=
      { affine := { ptr_weights := Buf.ofList weights, ptr_biases := Buf.ofList biases }
        recurrent :=
          { ptr_weights := Buf.ofList weights
            ptr_biases := Buf.ofList biases
            ptr_feedbacks := feedbacks }
        copy := { num_copy_rows := copy_rows, num_copy_columns := copy_cols } }
    ptr_inputs := Buf.ofList inputs
    ptr_outputs := fun _ => 0 }

/-- The descriptor `c` with all biases equal to `b`. -/
def withBiases (c : intel_dnn_component_t Int) (b : Int) : intel_dnn_component_t Int :=
  { c with op := { c.op with affine := { c.op.affine with ptr_biases := fun _ => b } } }

/-- The descriptor `c` with all inputs equal to `x`. -/
def withInputs (c : intel_dnn_component_t Int) (x : Int) : intel_dnn_component_t Int :=
  { c with ptr_inputs := fun _ => x }

/-- A dense layer of 65537 outputs, no input and batch 1 with output stride 65536, all
biases 1: its rows do not overlap, and the offset of row 65536 is `2 ^ 32`. -/
def exAffineWrap : intel_dnn_component_t Int :=
  withBiases (mkComponent 0 1 65537 65536 4 [] [] [] 0 0 none) 1

/-- A 65536 x 65537 matrix of ones to transpose into a buffer of stride 65536. -/
def exTransposeWrap : intel_dnn_component_t Int :=
  withInputs (mkComponent 65536 65537 65537 65536 4 [] [] [] 0 0 none) 1

/-- A 2 x 2 diagonal layer: weights `[2, 3]`, biases `[10, 20]`, all inputs `1`. -/
def exDiagonal : intel_dnn_component_t Int :=
  mkComponent 2 2 2 2 4 [2, 3] [10, 20] [1, 1, 1, 1] 0 0 none

/-- A dense layer with 2 outputs, 3 inputs and batch 2 (output stride 2). -/
def exAffine : intel_dnn_component_t Int :=
  mkComponent 3 2 2 2 4 [1, 2, 3, 4, 5, 6] [10, 20] [1, 0, 0, 1, 1, 1] 0 0 none

/-- The list `[1, 0]`: both rows of `exAffine`, in reverse order. -/
def exList : Nat → Nat := fun l => if l = 0 then 1 else 0

/-- A layer with 2 outputs, 1 input and batch 2 whose output stride is 1, so that the two
output rows overlap: weights `[1, 2]`, biases `[10, 20]`, inputs `[3, 4]`. -/
def exAffineOverlap : intel_dnn_component_t Int :=
  mkComponent 1 2 2 1 4 [1, 2] [10, 20] [3, 4] 0 0 none

/-- A descriptor whose element byte width is 2. -/
def exBadWidth : intel_dnn_component_t Int :=
  mkComponent 1 1 1 1 2 [1] [0] [5] 1 1 none

/-- A stand-in for the external primitive `PwlApply32(component, listsize)`: it stores 7 in
the first `listsize` cells of the output buffer. -/
def pwlStub (component : intel_dnn_component_t Int) (listsize : Nat) : Buf Int :=
  fun p => if p < listsize then 7 else component.ptr_outputs p

/-- A recurrent step with one input column and one output column whose descriptor stores a
feedback pointer. -/
def exRecurrent : intel_dnn_component_t Int :=
  mkComponent 1 1 1 1 4 [1, 1] [0] [5] 0 0 (some (Buf.ofList [7]))

/-- The same recurrent step with a null feedback pointer stored in the descriptor. -/
def exRecurrentNoStored : intel_dnn_component_t Int :=
  mkComponent 1 1 1 1 4 [1, 1] [0] [5] 0 0 none

/-- A 2 x 3 matrix to transpose into a buffer of stride 2. -/
def exTranspose1 : intel_dnn_component_t Int :=
  mkComponent 2 3 3 2 4 [] [] [1, 2, 3, 4, 5, 6] 0 0 none

/-- The transposition back: the 3 x 2 output of `exTranspose1` into a buffer of stride 3. -/
def exTranspose2 : intel_dnn_component_t Int :=
  { mkComponent 3 2 2 3 4 [] [] [] 0 0 none with
    ptr_inputs := (ApplyTranspose exTranspose1).output }

/-- A model whose component `i` has the `i`-th pair of the list as its `rows_in = rows_out`
and `cols_in = cols_out`. -/
def exModel (shapes : List (Nat × Nat)) : AMIntelDNN Int :=
  { num_components := shapes.length
    component := fun i =>
      mkComponent (shapes.getD i (0, 0)).1 (shapes.getD i (0, 0)).2
        (shapes.getD i (0, 0)).1 (shapes.getD i (0, 0)).2 4 [] [] [] 0 0 none }

/-- A copy of the full 2 x 2 input into an output of the same stride. -/
def exCopyFull : intel_dnn_component_t Int :=
  mkComponent 2 2 2 2 4 [] [] [10, 11, 12, 13] 2 2 none

/-- A copy of 2 x 2 cells into an output whose stride is 1, so that its rows overlap. -/
def exCopyOverlap : intel_dnn_component_t Int :=
  mkComponent 2 2 2 1 4 [] [] [10, 11, 12, 13] 2 2 none

/-- A copy that asks for `2 ^ 31` rows of an input of `2 ^ 31` rows. -/
def exCopyLarge : intel_dnn_component_t Int :=
  mkComponent 2147483648 1 2147483648 1 4 [] [] [] 2147483648 0 none

/-- A stand-in for the external primitive
`PwlApply32(component, num_row_start, num_row_end, num_col_start, num_col_end)`: it
stores 7 in the cells of the rows and columns of the two ranges. -/
def pwlRangeStub (component : intel_dnn_component_t Int)
    (num_row_start num_row_end num_col_start num_col_end : Nat) : Buf Int :=
  fun p =>
    if num_row_start * component.num_columns_in + num_col_start ≤ p
        ∧ p ≤ num_row_end * component.num_columns_in + num_col_end then 7
    else component.ptr_outputs p

/-- An accumulator whose maxima are not negative. -/
def exScore : intel_score_error_t Int :=
  { num_scores := 5, num_errors := 2, max_error := 3, sum_error := 4, sum_squared_error := 10,
    max_rel_error := 1, sum_rel_error := 2, sum_squared_rel_error := 3 }

/-- An accumulator whose absolute maximum is negative. -/
def exScoreNegative : intel_score_error_t Int :=
  { exScore with max_error := -1 }

/-! # Theorems -/

/-! ## Loops that update one cell at each step -/

section loops
variable {α : Type}

theorem forLoop_cell_frame (ix : Nat → Nat) (g : Nat → α → α) (n : Nat) (C : Buf α) (p : Nat)
    (h : ∀ t, t < n → ix t ≠ p) :
    forLoop (fun t C => C.set (ix t) (g t (C (ix t)))) n C p = C p := by
  induction n with
  | zero => rfl
  | succ n ih =>
    simp only [forLoop, Buf.set]
    rw [if_neg (fun e => h n (Nat.lt_succ_self n) e.symm)]
    exact ih (fun t ht => h t (Nat.lt_succ_of_lt ht))

theorem forLoop_cell_hit (ix : Nat → Nat) (g : Nat → α → α) (n : Nat) (C : Buf α) (p t0 : Nat)
    (ht0 : t0 < n) (hp : ix t0 = p) (hu : ∀ t, t < n → ix t = p → t = t0) :
    forLoop (fun t C => C.set (ix t) (g t (C (ix t)))) n C p = g t0 (C p) := by
  induction n with
  | zero => exact absurd ht0 (Nat.not_lt_zero _)
  | succ n ih =>
    simp only [forLoop, Buf.set]
    by_cases hn : ix n = p
    · have e : n = t0 := hu n (Nat.lt_succ_self n) hn
      subst e
      rw [if_pos hn.symm, hn]
      congr 1
      apply forLoop_cell_frame
      intro t ht hc
      have := hu t (Nat.lt_succ_of_lt ht) hc
      omega
    · rw [if_neg (fun e => hn e.symm)]
      have hlt : t0 < n := by
        rcases Nat.lt_succ_iff_lt_or_eq.mp ht0 with h | h
        · exact h
        · exact absurd (h ▸ hp) hn
      exact ih hlt (fun t ht => hu t (Nat.lt_succ_of_lt ht))

theorem forLoop2_cell_frame (ix : Nat → Nat → Nat) (g : Nat → Nat → α → α) (m n : Nat)
    (C : Buf α) (p : Nat) (h : ∀ i, i < m → ∀ j, j < n → ix i j ≠ p) :
    forLoop (fun i C => forLoop (fun j C => C.set (ix i j) (g i j (C (ix i j)))) n C) m C p
      = C p := by
  induction m with
  | zero => rfl
  | succ m ih =>
    simp only [forLoop]
    rw [forLoop_cell_frame (ix m) (g m) n _ p (h m (Nat.lt_succ_self m))]
    exact ih (fun i hi => h i (Nat.lt_succ_of_lt hi))

theorem forLoop2_cell_hit (ix : Nat → Nat → Nat) (g : Nat → Nat → α → α) (m n : Nat)
    (C : Buf α) (p i0 j0 : Nat) (hi0 : i0 < m) (hj0 : j0 < n) (hp : ix i0 j0 = p)
    (hu : ∀ i, i < m → ∀ j, j < n → ix i j = p → i = i0 ∧ j = j0) :
    forLoop (fun i C => forLoop (fun j C => C.set (ix i j) (g i j (C (ix i j)))) n C) m C p
      = g i0 j0 (C p) := by
  induction m with
  | zero => exact absurd hi0 (Nat.not_lt_zero _)
  | succ m ih =>
    simp only [forLoop]
    by_cases hm : i0 = m
    · subst hm
      rw [forLoop_cell_hit (ix i0) (g i0) n _ p j0 hj0 hp
        (fun j hj hc => (hu i0 (Nat.lt_succ_self i0) j hj hc).2)]
      congr 1
      apply forLoop2_cell_frame
      intro i hi j hj hc
      have := (hu i (Nat.lt_succ_of_lt hi) j hj hc).1
      omega
    · rw [forLoop_cell_frame (ix m) (g m) n _ p
        (fun j hj hc => hm (hu m (Nat.lt_succ_self m) j hj hc).1.symm)]
      have hlt : i0 < m := by omega
      exact ih hlt (fun i hi => hu i (Nat.lt_succ_of_lt hi))

theorem sumTo_eq_sum [Semiring α] (K : Nat) (f : Nat → α) :
    sumTo K f = ∑ k ∈ Finset.range K, f k := by
  induction K with
  | zero => rfl
  | succ K ih =>
    rw [Finset.sum_range_succ, ← ih]
    rfl

theorem RowsDisjoint.of_le {rows cols stride : Nat} (h : cols ≤ stride) :
    RowsDisjoint rows cols stride := by
  intro i _ i2 _ j hj j2 hj2 e
  rcases Nat.lt_trichotomy i i2 with hlt | heq | hgt
  · exfalso
    have : (i + 1) * stride ≤ i2 * stride := Nat.mul_le_mul_right _ hlt
    rw [Nat.add_mul] at this
    omega
  · exact heq
  · exfalso
    have : (i2 + 1) * stride ≤ i * stride := Nat.mul_le_mul_right _ hgt
    rw [Nat.add_mul] at this
    omega

theorem RowsDisjoint.cell_unique {rows cols stride : Nat} (h : RowsDisjoint rows cols stride)
    {i i2 j j2 : Nat} (hi : i < rows) (hi2 : i2 < rows) (hj : j < cols) (hj2 : j2 < cols)
    (e : i * stride + j = i2 * stride + j2) : i = i2 ∧ j = j2 := by
  have hii : i = i2 := h i hi i2 hi2 j hj j2 hj2 e
  subst hii
  exact ⟨rfl, by omega⟩

theorem u32_lt (x : Nat) : u32 x < 4294967296 := Nat.mod_lt _ (by decide)

theorem u32_of_lt {x : Nat} (h : x < 4294967296) : u32 x = x := Nat.mod_eq_of_lt h

/-- Storing a `uint32_t` value in an `int` and converting it back gives the value modulo
`2 ^ 32`. -/
theorem toUInt32_toInt32_eq (x : Nat) : toUInt32 (toInt32 x) = u32 x := by
  unfold toUInt32 toInt32 u32
  split <;> omega

/-- A loop nest that stores through 32-bit offsets leaves the cells at or past `2 ^ 32`. -/
theorem forLoop2_u32_frame (ix : Nat → Nat → Nat) (g : Nat → Nat → α → α) (m n : Nat)
    (C : Buf α) (p : Nat) (hp : 4294967296 ≤ p) :
    forLoop (fun i C =>
      forLoop (fun j C => C.set (u32 (ix i j)) (g i j (C (u32 (ix i j))))) n C) m C p = C p :=
  forLoop2_cell_frame (fun i j => u32 (ix i j)) g m n C p
    (fun i _ j _ e => absurd (e ▸ u32_lt (ix i j)) (Nat.not_lt.mpr hp))

/-- A loop nest that stores through 32-bit offsets, on rows that do not overlap and whose
offsets fit 32 bits. -/
theorem forLoop2_u32_hit (g : Nat → Nat → α → α) (m n ld : Nat) (C : Buf α)
    (hd : RowsDisjoint m n ld) (hfit : OffsetsFit m n ld) (i j : Nat) (hi : i < m)
    (hj : j < n) :
    forLoop (fun i C =>
      forLoop (fun j C => C.set (u32 (i * ld + j)) (g i j (C (u32 (i * ld + j))))) n C) m C
        (i * ld + j) = g i j (C (i * ld + j)) :=
  forLoop2_cell_hit (fun i j => u32 (i * ld + j)) g m n C _ i j hi hj
    (u32_of_lt (hfit i hi j hj))
    (fun i2 hi2 j2 hj2 e => hd.cell_unique hi2 hi hj2 hj
      ((u32_of_lt (hfit i2 hi2 j2 hj2)).symm.trans e))

/-- Seeding loop of the affine and diagonal kernels: row `l` of the output gets the value
`val l` in each of its first `n` columns. -/
theorem seed_cell (val : Nat → α) (m n ldc : Nat) (C : Buf α)
    (hd : RowsDisjoint m n ldc) (hfit : OffsetsFit m n ldc) (l j : Nat) (hl : l < m)
    (hj : j < n) :
    forLoop (fun l C => forLoop (fun j C => C.set (u32 (l * ldc + j)) (val l)) n C) m C
      (l * ldc + j) = val l :=
  forLoop2_u32_hit (fun l _ _ => val l) m n ldc C hd hfit l j hl hj

end loops

section affine
variable {α : Type} [Semiring α]

theorem cblas_sgemm_subset_cell (M N K : Nat) (alpha beta : α) (A B C : Buf α)
    (lda ldb ldc : Nat) (list : Nat → Nat) (listsize : Nat)
    (hd : RowsDisjoint listsize N ldc) (l j : Nat) (hl : l < listsize) (hj : j < N) :
    cblas_sgemm_subset M N K alpha A lda B ldb beta C ldc list listsize (l * ldc + j)
      = alpha * (∑ k ∈ Finset.range K, A (list l * lda + k) * B (k * ldb + j))
        + beta * C (l * ldc + j) := by
  rw [← sumTo_eq_sum]
  exact forLoop2_cell_hit (fun l j => l * ldc + j)
    (fun l j c => alpha * sumTo K (fun k => A (list l * lda + k) * B (k * ldb + j)) + beta * c)
    listsize N C _ l j hl hj rfl (fun _ hi _ hj2 e => hd.cell_unique hi hl hj2 hj e)

theorem cblas_sgemm1_cell (M N K : Nat) (alpha beta : α) (A B C : Buf α)
    (lda ldb ldc : Nat) (hd : RowsDisjoint M N ldc) (i j : Nat) (hi : i < M) (hj : j < N) :
    cblas_sgemm1 M N K alpha A lda B ldb beta C ldc (i * ldc + j)
      = alpha * (∑ k ∈ Finset.range K, A (i * lda + k) * B (k * ldb + j))
        + beta * C (i * ldc + j) :=
  cblas_sgemm_subset_cell M N K alpha beta A B C lda ldb ldc (fun i => i) M hd i j hi hj

end affine

/-! ## Affine and diagonal transforms -/

/-- C1 (the code departs from it). On the 2 x 2 layer `exDiagonal` the call succeeds, yet
the output cell `(0, 1)` holds `weight[1]*input[0][1] + bias[0] = 13` and not
`weight[0]*input[0][1] + bias[0] = 12`: the banded primitive is applied to the
row `j` of input and output (`B + j*ldb`, `C + j*ldc`, unit increments), so
the weight is indexed by the column of the cell. -/
theorem ApplyDiagonalTransform_failing_input :
    (ApplyDiagonalTransform exDiagonal).error = none ∧
    (ApplyDiagonalTransform exDiagonal).output (0 * exDiagonal.num_columns_out + 1) = 13 ∧
    exDiagonal.op.affine.ptr_weights 0 * exDiagonal.ptr_inputs (0 * exDiagonal.num_columns_in + 1)
      + exDiagonal.op.affine.ptr_biases 0 = 12 ∧
    exDiagonal.op.affine.ptr_weights 1 * exDiagonal.ptr_inputs (0 * exDiagonal.num_columns_in + 1)
      + exDiagonal.op.affine.ptr_biases 0 = 13 := by
  decide

section affine_dense
variable {α : Type} [Semiring α]

/-- The cells of dense mode on rows that do not overlap and whose offsets fit 32 bits. -/
theorem ApplyAffineTransform_dense_cell (component : intel_dnn_component_t α) (listsize : Nat)
    (hwidth : component.num_bytes_per_input = 4) (htype : component.IsUInt32)
    (hrows : RowsDisjoint component.num_rows_out component.num_columns_in
      component.num_columns_out)
    (hfit : OffsetsFit component.num_rows_out component.num_columns_in
      component.num_columns_out)
    (i j : Nat) (hi : i < component.num_rows_out) (hj : j < component.num_columns_in) :
    (ApplyAffineTransform component none listsize).output (i * component.num_columns_out + j)
      = component.op.affine.ptr_biases i
        + ∑ k ∈ Finset.range component.num_rows_in,
            component.op.affine.ptr_weights (i * component.num_rows_in + k)
              * component.ptr_inputs (k * component.num_columns_in + j) := by
  have hw : ¬ (4 ≠ component.num_bytes_per_input) := fun h => h hwidth.symm
  have hi32 : u32 i = i := u32_of_lt (lt_trans hi htype.2.2.1)
  simp only [ApplyAffineTransform, hw, if_false]
  rw [cblas_sgemm1_cell _ _ _ _ _ _ _ _ _ _ _ hrows i j hi hj,
    seed_cell (fun i => component.op.affine.ptr_biases (u32 i)) _ _ _ _ hrows hfit i j hi hj,
    hi32, one_mul, one_mul, add_comm]

/-- The cells of dense mode whose offset does not fit 32 bits are never seeded. -/
theorem ApplyAffineTransform_dense_unseeded (component : intel_dnn_component_t α)
    (listsize : Nat) (hwidth : component.num_bytes_per_input = 4)
    (hrows : RowsDisjoint component.num_rows_out component.num_columns_in
      component.num_columns_out)
    (i j : Nat) (hi : i < component.num_rows_out) (hj : j < component.num_columns_in)
    (hbig : 4294967296 ≤ i * component.num_columns_out + j) :
    (ApplyAffineTransform component none listsize).output (i * component.num_columns_out + j)
      = component.ptr_outputs (i * component.num_columns_out + j)
        + ∑ k ∈ Finset.range component.num_rows_in,
            component.op.affine.ptr_weights (i * component.num_rows_in + k)
              * component.ptr_inputs (k * component.num_columns_in + j) := by
  have hw : ¬ (4 ≠ component.num_bytes_per_input) := fun h => h hwidth.symm
  simp only [ApplyAffineTransform, hw, if_false]
  rw [cblas_sgemm1_cell _ _ _ _ _ _ _ _ _ _ _ hrows i j hi hj,
    forLoop2_u32_frame (fun i j => i * component.num_columns_out + j)
      (fun i _ _ => component.op.affine.ptr_biases (u32 i)) _ _ _ _ hbig,
    one_mul, one_mul, add_comm]

/-- C2, as amended. Affine dense mode: on a descriptor of element width 4 (fields of type
`uint32_t`) whose output rows do not overlap and whose output offsets
`i*cols_out + j` fit 32 bits, the call with a null list succeeds and leaves
`C[i*cols_out + j] = bias[i] + sum over k < rows_in of A[i*rows_in + k] * B[k*cols_in + j]`
for every `i < rows_out` and `j < cols_in`, the matmul primitive being
`C <- 1*A*B + 1*C` on the output preseeded with the biases. -/
theorem ApplyAffineTransform_dense (component : intel_dnn_component_t α) (listsize : Nat)
    (hwidth : component.num_bytes_per_input = 4) (htype : component.IsUInt32)
    (hrows : RowsDisjoint component.num_rows_out component.num_columns_in
      component.num_columns_out)
    (hfit : OffsetsFit component.num_rows_out component.num_columns_in
      component.num_columns_out) :
    (ApplyAffineTransform component none listsize).error = none ∧
    ∀ i < component.num_rows_out, ∀ j < component.num_columns_in,
      (ApplyAffineTransform component none listsize).output (i * component.num_columns_out + j)
        = component.op.affine.ptr_biases i
          + ∑ k ∈ Finset.range component.num_rows_in,
              component.op.affine.ptr_weights (i * component.num_rows_in + k)
                * component.ptr_inputs (k * component.num_columns_in + j) := by
  have hw : ¬ (4 ≠ component.num_bytes_per_input) := fun h => h hwidth.symm
  exact ⟨by simp [ApplyAffineTransform, hw], fun i hi j hj =>
    ApplyAffineTransform_dense_cell component listsize hwidth htype hrows hfit i j hi hj⟩

end affine_dense

/-- Witness of C2, as amended. -/
theorem ApplyAffineTransform_dense_witness :
    exAffine.num_bytes_per_input = 4 ∧ exAffine.IsUInt32 ∧ RowsDisjoint 2 2 2 ∧
    OffsetsFit 2 2 2 ∧
    (ApplyAffineTransform exAffine none 0).error = none ∧
    ∀ i < 2, ∀ j < 2,
      (ApplyAffineTransform exAffine none 0).output (i * 2 + j)
        = exAffine.op.affine.ptr_biases i
          + ∑ k ∈ Finset.range 3,
              exAffine.op.affine.ptr_weights (i * 3 + k) * exAffine.ptr_inputs (k * 2 + j) :=
  ⟨by decide, by decide, by decide, by decide,
    ApplyAffineTransform_dense exAffine 0 (by decide) (by decide) (by decide) (by decide)⟩

/-- C2 as stated fails: `exAffineWrap` has element width 4 and rows that do not overlap
(65537 rows of one cell, stride 65536), but the seeding loop forms the offset of
row 65536 in 32 bits, `65536*65536 = 2^32` wrapping to 0: the cell
`C[65536*65536 + 0]` is never seeded and holds what the buffer held, 0, not
`bias[65536] = 1`. -/
theorem ApplyAffineTransform_dense_offset_wraps :
    exAffineWrap.num_bytes_per_input = 4 ∧
    RowsDisjoint exAffineWrap.num_rows_out exAffineWrap.num_columns_in
      exAffineWrap.num_columns_out ∧
    (ApplyAffineTransform exAffineWrap none 0).output (65536 * 65536 + 0) = 0 ∧
    exAffineWrap.op.affine.ptr_biases 65536
      + ∑ k ∈ Finset.range exAffineWrap.num_rows_in,
          exAffineWrap.op.affine.ptr_weights (65536 * exAffineWrap.num_rows_in + k)
            * exAffineWrap.ptr_inputs (k * exAffineWrap.num_columns_in + 0) = 1 ∧
    ¬ (∀ i < exAffineWrap.num_rows_out, ∀ j < exAffineWrap.num_columns_in,
        (ApplyAffineTransform exAffineWrap none 0).output (i * exAffineWrap.num_columns_out + j)
          = exAffineWrap.op.affine.ptr_biases i
            + ∑ k ∈ Finset.range exAffineWrap.num_rows_in,
                exAffineWrap.op.affine.ptr_weights (i * exAffineWrap.num_rows_in + k)
                  * exAffineWrap.ptr_inputs (k * exAffineWrap.num_columns_in + j)) := by
  have hd : RowsDisjoint exAffineWrap.num_rows_out exAffineWrap.num_columns_in
      exAffineWrap.num_columns_out :=
    RowsDisjoint.of_le (show (1 : Nat) ≤ 65536 by decide)
  have h0 : (ApplyAffineTransform exAffineWrap none 0).output (65536 * 65536 + 0) = 0 := by
    have h := ApplyAffineTransform_dense_unseeded exAffineWrap 0 rfl hd 65536 0
      (show (65536 : Nat) < 65537 by decide) (show (0 : Nat) < 1 by decide)
      (show 4294967296 ≤ 65536 * 65536 + 0 by decide)
    rw [show exAffineWrap.num_columns_out = 65536 from rfl] at h
    rw [h]
    rfl
  have h1 : exAffineWrap.op.affine.ptr_biases 65536
      + ∑ k ∈ Finset.range exAffineWrap.num_rows_in,
          exAffineWrap.op.affine.ptr_weights (65536 * exAffineWrap.num_rows_in + k)
            * exAffineWrap.ptr_inputs (k * exAffineWrap.num_columns_in + 0) = 1 := by
    rfl
  refine ⟨rfl, hd, h0, h1, fun h => ?_⟩
  have h2 := h 65536 (show (65536 : Nat) < 65537 by decide) 0 (show (0 : Nat) < 1 by decide)
  rw [show exAffineWrap.num_columns_out = 65536 from rfl, h0, h1] at h2
  exact absurd h2 (by decide)


section affine_subset
variable {α : Type} [Semiring α]

/-- C3, as amended. Affine subset mode: on a descriptor of element width 4 whose output
rows do not overlap, with at most `2^31` positions, list values below `2^31`
and output offsets `l*cols_out + j` below `2^31` (so that the `int`
variables `l`, `i` and the product `l * ldc` of the source hold them), for
every position `l < listsize` and every column `j < cols_in` the call leaves
`C[l*cols_out + j] = bias[list[l]] + sum over k < rows_in of A[list[l]*rows_in + k] * B[k*cols_in + j]`:
bias and weight row are those of the global row `list[l]`, the result is
stored at the compacted row `l`. -/
theorem ApplyAffineTransform_subset (component : intel_dnn_component_t α) (list : Nat → Nat)
    (listsize : Nat) (hwidth : component.num_bytes_per_input = 4)
    (_hsize : listsize ≤ 2147483648) (hlist : ∀ l < listsize, list l < 2147483648)
    (hrows : RowsDisjoint listsize component.num_columns_in component.num_columns_out)
    (hfit : OffsetsFitInt listsize component.num_columns_in component.num_columns_out) :
    (ApplyAffineTransform component (some list) listsize).error = none ∧
    ∀ l < listsize, ∀ j < component.num_columns_in,
      (ApplyAffineTransform component (some list) listsize).output
          (l * component.num_columns_out + j)
        = component.op.affine.ptr_biases (list l)
          + ∑ k ∈ Finset.range component.num_rows_in,
              component.op.affine.ptr_weights (list l * component.num_rows_in + k)
                * component.ptr_inputs (k * component.num_columns_in + j) := by
  have hw : ¬ (4 ≠ component.num_bytes_per_input) := fun h => h hwidth.symm
  have hfit32 : OffsetsFit listsize component.num_columns_in component.num_columns_out :=
    fun l hl j hj => lt_trans (hfit l hl j hj) (by decide)
  refine ⟨by simp [ApplyAffineTransform, hw], ?_⟩
  intro l hl j hj
  have hb : component.op.affine.ptr_biases.atInt (toInt32 (list l))
      = component.op.affine.ptr_biases (list l) := by
    unfold Buf.atInt
    rw [toUInt32_toInt32_eq, u32_of_lt (lt_trans (hlist l hl) (by decide))]
  simp only [ApplyAffineTransform, hw, if_false]
  rw [cblas_sgemm_subset_cell _ _ _ _ _ _ _ _ _ _ _ _ _ hrows l j hl hj,
    seed_cell (fun l => component.op.affine.ptr_biases.atInt (toInt32 (list l))) _ _ _ _
      hrows hfit32 l j hl hj, hb, one_mul, one_mul, add_comm]

end affine_subset

/-- Witness of C3, as amended: with the list `[1, 0]`, row 0 of the output holds the values
of the global row 1 (bias 20) and row 1 those of the global row 0 (bias 10). -/
theorem ApplyAffineTransform_subset_witness :
    exAffine.num_bytes_per_input = 4 ∧ (∀ l < 2, exList l < 2147483648) ∧
    RowsDisjoint 2 2 2 ∧ OffsetsFitInt 2 2 2 ∧
    (ApplyAffineTransform exAffine (some exList) 2).output (0 * 2 + 0) = 20 + (4 + 0 + 6) ∧
    (ApplyAffineTransform exAffine (some exList) 2).output (1 * 2 + 1) = 10 + (0 + 2 + 3) := by
  have h := ApplyAffineTransform_subset exAffine exList 2 (by decide) (by decide) (by decide)
    (by decide) (by decide)
  refine ⟨by decide, by decide, by decide, by decide, ?_, ?_⟩
  · rw [show (0 * 2 + 0 : Nat) = 0 * exAffine.num_columns_out + 0 from rfl,
      h.2 0 (by decide) 0 (by decide)]
    decide
  · rw [show (1 * 2 + 1 : Nat) = 1 * exAffine.num_columns_out + 1 from rfl,
      h.2 1 (by decide) 1 (by decide)]
    decide

/-- C3 as stated fails: on `exAffineOverlap` (element width 4, two columns, output stride 1)
with the list `[1, 0]` the call succeeds, but the cell of position `l = 0`
and column `j = 1` is also the cell of position 1 and column 0, seeded and
accumulated last: it holds `bias[0] + A[1]*B[1] + A[0]*B[0] = 21` and not
`bias[list[0]] + A[list[0]]*B[1] = 28`. -/
theorem ApplyAffineTransform_subset_overlapping_rows :
    exAffineOverlap.num_bytes_per_input = 4 ∧
    (ApplyAffineTransform exAffineOverlap (some exList) 2).error = none ∧
    ¬ (∀ l < 2, ∀ j < exAffineOverlap.num_columns_in,
        (ApplyAffineTransform exAffineOverlap (some exList) 2).output
            (l * exAffineOverlap.num_columns_out + j)
          = exAffineOverlap.op.affine.ptr_biases (exList l)
            + ∑ k ∈ Finset.range exAffineOverlap.num_rows_in,
                exAffineOverlap.op.affine.ptr_weights (exList l * exAffineOverlap.num_rows_in + k)
                  * exAffineOverlap.ptr_inputs (k * exAffineOverlap.num_columns_in + j)) ∧
    (ApplyAffineTransform exAffineOverlap (some exList) 2).output (0 * 1 + 1) = 21 ∧
    exAffineOverlap.op.affine.ptr_biases (exList 0)
      + exAffineOverlap.op.affine.ptr_weights (exList 0 * 1 + 0)
        * exAffineOverlap.ptr_inputs (0 * 2 + 1) = 28 := by
  refine ⟨by decide, by decide, ?_, by decide, by decide⟩
  intro h
  exact absurd (h 0 (by decide) 1 (by decide)) (by decide)

/-! ## Layout check and feedback guard -/

section layout_check
variable {α : Type} [Semiring α]

/-- C4, as amended. Every kernel other than the two PiecewiseLinear entry points (Affine,
Diagonal, Recurrent, Convolution1D, MaxPool, Transpose, Copy), called on a
descriptor whose element byte width is not 4, fails with `InvalidLayout`
whatever its other arguments are, with the output buffer as the call found it
and no primitive invoked.  The two PiecewiseLinear entry points do not look at
the byte width: they never fail with `InvalidLayout`, and with the float number
type they delegate to the primitive. -/
theorem width_check_comes_first (component : intel_dnn_component_t α)
    (hwidth : component.num_bytes_per_input ≠ 4) :
    (∀ list listsize, ApplyAffineTransform component list listsize
      = { error := some GnaError.InvalidLayout, output := component.ptr_outputs, calls := [] }) ∧
    ApplyDiagonalTransform component
      = { error := some GnaError.InvalidLayout, output := component.ptr_outputs, calls := [] } ∧
    (∀ row ptr_feedbacks, ApplyRecurrentTransform component row ptr_feedbacks
      = { error := some GnaError.InvalidLayout, output := component.ptr_outputs, calls := [] }) ∧
    (∀ CNNFilter32, ApplyConvolutional1DTransform CNNFilter32 component
      = { error := some GnaError.InvalidLayout, output := component.ptr_outputs, calls := [] }) ∧
    (∀ CNNMaxPool number_type, ApplyMaxPoolTransform CNNMaxPool component number_type
      = { error := some GnaError.InvalidLayout, output := component.ptr_outputs, calls := [] }) ∧
    ApplyTranspose component
      = { error := some GnaError.InvalidLayout, output := component.ptr_outputs, calls := [] } ∧
    ApplyCopy component
      = { error := some GnaError.InvalidLayout, output := component.ptr_outputs, calls := [] } ∧
    (∀ PwlApply32 number_type listsize,
      (ApplyPiecewiseLinearTransform PwlApply32 component number_type listsize).error
        ≠ some GnaError.InvalidLayout) ∧
    (∀ PwlApply32 number_type listsize num_row,
      (ApplyPiecewiseLinearTransformRow PwlApply32 component number_type listsize num_row).error
        ≠ some GnaError.InvalidLayout) ∧
    (∀ PwlApply32 listsize,
      ApplyPiecewiseLinearTransform PwlApply32 component intel_dnn_number_type_t.kDnnFloat listsize
        = { error := none, output := PwlApply32 component listsize,
            calls := [Primitive.PwlApply32] }) ∧
    (∀ PwlApply32 listsize num_row,
      (ApplyPiecewiseLinearTransformRow PwlApply32 component
        intel_dnn_number_type_t.kDnnFloat listsize num_row).error = none ∧
      (ApplyPiecewiseLinearTransformRow PwlApply32 component
        intel_dnn_number_type_t.kDnnFloat listsize num_row).calls = [Primitive.PwlApply32]) := by
  have hw : 4 ≠ component.num_bytes_per_input := fun h => hwidth h.symm
  refine ⟨?_, ?_, ?_, ?_, ?_, ?_, ?_, ?_, ?_, ?_, ?_⟩
  · intro list listsize
    simp [ApplyAffineTransform, hw, throwBefore]
  · simp [ApplyDiagonalTransform, hw, throwBefore]
  · intro row ptr_feedbacks
    simp [ApplyRecurrentTransform, hw, throwBefore]
  · intro CNNFilter32
    simp [ApplyConvolutional1DTransform, hw, throwBefore]
  · intro CNNMaxPool number_type
    simp [ApplyMaxPoolTransform, hw, throwBefore]
  · simp [ApplyTranspose, hw, throwBefore]
  · simp [ApplyCopy, hw, throwBefore]
  · intro PwlApply32 number_type listsize
    unfold ApplyPiecewiseLinearTransform throwBefore
    split <;> simp
  · intro PwlApply32 number_type listsize num_row
    unfold ApplyPiecewiseLinearTransformRow throwBefore
    split <;> simp
  · intro PwlApply32 listsize
    simp [ApplyPiecewiseLinearTransform]
  · intro PwlApply32 listsize num_row
    simp [ApplyPiecewiseLinearTransformRow]

end layout_check

/-- Witness of C4, as amended, on a descriptor of byte width 2. -/
theorem width_check_comes_first_witness :
    exBadWidth.num_bytes_per_input ≠ 4 ∧
    ApplyCopy exBadWidth
      = { error := some GnaError.InvalidLayout, output := exBadWidth.ptr_outputs, calls := [] } ∧
    (ApplyRecurrentTransform exBadWidth 0 none).error = some GnaError.InvalidLayout :=
  ⟨by decide, (width_check_comes_first exBadWidth (by decide)).2.2.2.2.2.2.1,
    congrArg Outcome.error ((width_check_comes_first exBadWidth (by decide)).2.2.1 0 none)⟩

/-- C4 as stated fails: on a descriptor of byte width 2 the first PiecewiseLinear entry
point, called with the float number type, does not fail; it invokes the
primitive, which writes to the output buffer. -/
theorem ApplyPiecewiseLinearTransform_ignores_width :
    exBadWidth.num_bytes_per_input ≠ 4 ∧
    (ApplyPiecewiseLinearTransform pwlStub exBadWidth
      intel_dnn_number_type_t.kDnnFloat 1).error = none ∧
    (ApplyPiecewiseLinearTransform pwlStub exBadWidth
      intel_dnn_number_type_t.kDnnFloat 1).calls = [Primitive.PwlApply32] ∧
    (ApplyPiecewiseLinearTransform pwlStub exBadWidth
      intel_dnn_number_type_t.kDnnFloat 1).output 0 = 7 ∧
    exBadWidth.ptr_outputs 0 = 0 := by
  decide

/-- C5 (the code departs from it). The guard of `ApplyRecurrentTransform` tests the feedback
pointer stored in the descriptor, `component->op.recurrent.ptr_feedbacks`,
while the feedback columns are read through the argument `ptr_feedbacks`.
With a stored pointer and a null argument the call does not fail and invokes
the primitive; with a null stored pointer and a present argument it fails with
`MissingFeedback`. -/
theorem ApplyRecurrentTransform_guard_tests_stored_pointer :
    (ApplyRecurrentTransform exRecurrent 0 none).error = none ∧
    (ApplyRecurrentTransform exRecurrent 0 none).calls = [Primitive.sgemv_split] ∧
    (ApplyRecurrentTransform exRecurrentNoStored 0 (some (Buf.ofList [7]))).error
      = some GnaError.MissingFeedback := by
  decide

/-! ## Transpose -/

section transpose_claims
variable {α : Type}

/-- A single transposition into an output whose stride is at least `rows_in`, when the
offsets it writes and reads fit 32 bits:
`out[col*cols_out + row] = in[row*cols_in + col]`. -/
theorem ApplyTranspose_cell (component : intel_dnn_component_t α)
    (hwidth : component.num_bytes_per_input = 4)
    (hstride : component.num_rows_in ≤ component.num_columns_out)
    (hwrite : OffsetsFit component.num_columns_in component.num_rows_in
      component.num_columns_out)
    (hread : OffsetsFit component.num_rows_in component.num_columns_in
      component.num_columns_in)
    (row col : Nat) (hrow : row < component.num_rows_in)
    (hcol : col < component.num_columns_in) :
    (ApplyTranspose component).output (col * component.num_columns_out + row)
      = component.ptr_inputs (row * component.num_columns_in + col) := by
  have hw : ¬ (4 ≠ component.num_bytes_per_input) := fun h => h hwidth.symm
  have hd : RowsDisjoint component.num_columns_in component.num_rows_in
      component.num_columns_out := RowsDisjoint.of_le hstride
  simp only [ApplyTranspose, hw, if_false]
  rw [← u32_of_lt (hread row hrow col hcol)]
  exact forLoop2_cell_hit (fun row col => u32 (col * component.num_columns_out + row))
    (fun row col _ => component.ptr_inputs (u32 (row * component.num_columns_in + col)))
    component.num_rows_in component.num_columns_in component.ptr_outputs _ row col hrow hcol
    (u32_of_lt (hwrite col hcol row hrow))
    (fun i hi j hj e => (hd.cell_unique hj hcol hi hrow
      ((u32_of_lt (hwrite j hj i hi)).symm.trans e)).symm)

/-- A transposition never writes a cell at or past `2 ^ 32`. -/
theorem ApplyTranspose_high (component : intel_dnn_component_t α)
    (hwidth : component.num_bytes_per_input = 4) (p : Nat) (hp : 4294967296 ≤ p) :
    (ApplyTranspose component).output p = component.ptr_outputs p := by
  have hw : ¬ (4 ≠ component.num_bytes_per_input) := fun h => h hwidth.symm
  simp only [ApplyTranspose, hw, if_false]
  exact forLoop2_u32_frame (fun row col => col * component.num_columns_out + row)
    (fun row col _ => component.ptr_inputs (u32 (row * component.num_columns_in + col)))
    component.num_rows_in component.num_columns_in component.ptr_outputs p hp

theorem ApplyTranspose_error (component : intel_dnn_component_t α)
    (hwidth : component.num_bytes_per_input = 4) : (ApplyTranspose component).error = none := by
  have hw : ¬ (4 ≠ component.num_bytes_per_input) := fun h => h hwidth.symm
  simp [ApplyTranspose, hw]

/-- The cells of an `m x n` matrix of at most `2 ^ 32` cells have offsets that fit 32 bits,
in both layouts. -/
theorem OffsetsFit.of_mul_le {m n : Nat} (h : m * n ≤ 4294967296) : OffsetsFit m n n := by
  intro i hi j hj
  have h1 : (i + 1) * n ≤ m * n := Nat.mul_le_mul_right _ hi
  rw [Nat.add_mul] at h1
  omega

/-- C6, as amended. Transpose round trip: for an `m x n` input `X` (element width 4) of at
most `2^32` cells, `m*n <= 2^32`, the transposition `c1` of `X` with output
stride `m` followed by the transposition `c2` of its `n x m` result with
output stride `n` both succeed and leave a buffer equal to `X` on all `m*n`
cells; each of the two transpositions satisfies
`out[col*cols_out + row] = in[row*cols_in + col]` for every `row < rows_in`,
`col < cols_in`. -/
theorem ApplyTranspose_round_trip (c1 c2 : intel_dnn_component_t α)
    (hwidth1 : c1.num_bytes_per_input = 4) (hwidth2 : c2.num_bytes_per_input = 4)
    (hsize : c1.num_rows_in * c1.num_columns_in ≤ 4294967296)
    (hstride1 : c1.num_columns_out = c1.num_rows_in)
    (hrows2 : c2.num_rows_in = c1.num_columns_in)
    (hcols2 : c2.num_columns_in = c1.num_rows_in)
    (hstride2 : c2.num_columns_out = c1.num_columns_in)
    (hinput2 : c2.ptr_inputs = (ApplyTranspose c1).output) :
    (ApplyTranspose c1).error = none ∧ (ApplyTranspose c2).error = none ∧
    (∀ p < c1.num_rows_in * c1.num_columns_in,
      (ApplyTranspose c2).output p = c1.ptr_inputs p) ∧
    (∀ row < c1.num_rows_in, ∀ col < c1.num_columns_in,
      (ApplyTranspose c1).output (col * c1.num_columns_out + row)
        = c1.ptr_inputs (row * c1.num_columns_in + col)) ∧
    (∀ row < c2.num_rows_in, ∀ col < c2.num_columns_in,
      (ApplyTranspose c2).output (col * c2.num_columns_out + row)
        = c2.ptr_inputs (row * c2.num_columns_in + col)) := by
  have hmn : OffsetsFit c1.num_rows_in c1.num_columns_in c1.num_columns_in :=
    OffsetsFit.of_mul_le hsize
  have hnm : OffsetsFit c1.num_columns_in c1.num_rows_in c1.num_rows_in :=
    OffsetsFit.of_mul_le (by rw [Nat.mul_comm]; exact hsize)
  have h1 := ApplyTranspose_cell c1 hwidth1 (le_of_eq hstride1.symm)
    (by rw [hstride1]; exact hnm) hmn
  have h2 := ApplyTranspose_cell c2 hwidth2 (le_of_eq (hrows2.trans hstride2.symm))
    (by rw [hstride2, hcols2, hrows2]; exact hmn) (by rw [hrows2, hcols2]; exact hnm)
  refine ⟨ApplyTranspose_error c1 hwidth1, ApplyTranspose_error c2 hwidth2, ?_,
    fun row hrow col hcol => h1 row col hrow hcol,
    fun row hrow col hcol => h2 row col hrow hcol⟩
  intro p hp
  have hn : 0 < c1.num_columns_in := by
    rcases Nat.eq_zero_or_pos c1.num_columns_in with h0 | h0
    · rw [h0, Nat.mul_zero] at hp
      exact absurd hp (Nat.not_lt_zero _)
    · exact h0
  have hb : p % c1.num_columns_in < c1.num_columns_in := Nat.mod_lt _ hn
  have ha : p / c1.num_columns_in < c1.num_rows_in :=
    (Nat.div_lt_iff_lt_mul hn).mpr hp
  have hpe : p / c1.num_columns_in * c1.num_columns_in + p % c1.num_columns_in = p := by
    rw [Nat.mul_comm]
    exact Nat.div_add_mod p c1.num_columns_in
  have e2 := h2 (p % c1.num_columns_in) (p / c1.num_columns_in) (hrows2 ▸ hb) (hcols2 ▸ ha)
  rw [hstride2, hcols2, hinput2, hpe] at e2
  have e1 := h1 (p / c1.num_columns_in) (p % c1.num_columns_in) ha hb
  rw [hstride1, hpe] at e1
  rw [e2, e1]

end transpose_claims

/-- C6 as stated fails: `exTransposeWrap` is a 65536 x 65537 matrix of ones (element width 4)
transposed with output stride 65536.  The offset `col*cols_out + row` is formed
in 32 bits, so at `col = 65536`, `row = 0` it is `2^32` wrapped to 0: the
cell `out[65536*65536 + 0]` is never written and holds 0, not
`in[0*65537 + 65536] = 1`. -/
theorem ApplyTranspose_offset_wraps :
    exTransposeWrap.num_bytes_per_input = 4 ∧
    exTransposeWrap.num_columns_out = exTransposeWrap.num_rows_in ∧
    (ApplyTranspose exTransposeWrap).output (65536 * 65536 + 0) = 0 ∧
    exTransposeWrap.ptr_inputs (0 * 65537 + 65536) = 1 ∧
    ¬ (∀ row < exTransposeWrap.num_rows_in, ∀ col < exTransposeWrap.num_columns_in,
        (ApplyTranspose exTransposeWrap).output (col * exTransposeWrap.num_columns_out + row)
          = exTransposeWrap.ptr_inputs (row * exTransposeWrap.num_columns_in + col)) := by
  have h0 : (ApplyTranspose exTransposeWrap).output (65536 * 65536 + 0) = 0 := by
    rw [ApplyTranspose_high exTransposeWrap rfl _ (by decide)]
    rfl
  refine ⟨rfl, rfl, h0, rfl, fun h => ?_⟩
  have h2 := h 0 (show (0 : Nat) < 65536 by decide) 65536 (show (65536 : Nat) < 65537 by decide)
  rw [show exTransposeWrap.num_columns_out = 65536 from rfl, h0] at h2
  exact absurd h2 (by decide)

/-- Witness of C6, as amended: a 2 x 3 matrix transposed and transposed back. -/
theorem ApplyTranspose_round_trip_witness :
    (ApplyTranspose exTranspose1).error = none ∧ (ApplyTranspose exTranspose2).error = none ∧
    (∀ p < 2 * 3, (ApplyTranspose exTranspose2).output p = exTranspose1.ptr_inputs p) ∧
    (∀ row < 2, ∀ col < 3,
      (ApplyTranspose exTranspose1).output (col * 2 + row)
        = exTranspose1.ptr_inputs (row * 3 + col)) ∧
    (∀ row < 3, ∀ col < 2,
      (ApplyTranspose exTranspose2).output (col * 3 + row)
        = exTranspose2.ptr_inputs (row * 2 + col)) :=
  ApplyTranspose_round_trip exTranspose1 exTranspose2 rfl rfl (by decide) rfl rfl rfl rfl rfl

/-! ## Compatibility of two models -/

section compat
variable {α : Type}

/-- The loop of `isCompatibleDnn` ends with the flag set if and only if it started with the
flag set and the five compared fields agree at every index it visits. -/
theorem isCompatibleDnn_loop (dnn1 dnn2 : AMIntelDNN α) (n : Nat) (b : Bool) :
    forLoop (fun i isCompatible =>
      let isCompatible :=
        if (dnn1.component i).num_rows_in ≠ (dnn2.component i).num_rows_in then false
        else isCompatible
      let isCompatible :=
        if (dnn1.component i).num_columns_in ≠ (dnn2.component i).num_columns_in then false
        else isCompatible
      let isCompatible :=
        if (dnn1.component i).num_rows_out ≠ (dnn2.component i).num_rows_out then false
        else isCompatible
      let isCompatible :=
        if (dnn1.component i).num_columns_out ≠ (dnn2.component i).num_columns_out then false
        else isCompatible
      let isCompatible :=
        if (dnn1.component i).operation ≠ (dnn2.component i).operation then false
        else isCompatible
      isCompatible) n b = true ↔
    b = true ∧ ∀ i < n,
      (dnn1.component i).num_rows_in = (dnn2.component i).num_rows_in ∧
      (dnn1.component i).num_columns_in = (dnn2.component i).num_columns_in ∧
      (dnn1.component i).num_rows_out = (dnn2.component i).num_rows_out ∧
      (dnn1.component i).num_columns_out = (dnn2.component i).num_columns_out ∧
      (dnn1.component i).operation = (dnn2.component i).operation := by
  induction n with
  | zero => simp [forLoop]
  | succ n ih =>
    simp only [forLoop]
    constructor
    · intro h
      by_cases h1 : (dnn1.component n).num_rows_in = (dnn2.component n).num_rows_in
      · by_cases h2 : (dnn1.component n).num_columns_in = (dnn2.component n).num_columns_in
        · by_cases h3 : (dnn1.component n).num_rows_out = (dnn2.component n).num_rows_out
          · by_cases h4 : (dnn1.component n).num_columns_out = (dnn2.component n).num_columns_out
            · by_cases h5 : (dnn1.component n).operation = (dnn2.component n).operation
              · simp only [h1, h2, h3, h4, h5, ne_eq, not_true_eq_false, if_false] at h
                obtain ⟨hb, hall⟩ := ih.mp h
                refine ⟨hb, fun i hi => ?_⟩
                rcases Nat.lt_succ_iff_lt_or_eq.mp hi with hlt | heq
                · exact hall i hlt
                · subst heq
                  exact ⟨h1, h2, h3, h4, h5⟩
              · simp [h5] at h
            · simp [h4] at h
          · simp [h3] at h
        · simp [h2] at h
      · simp [h1] at h
    · rintro ⟨hb, hall⟩
      obtain ⟨h1, h2, h3, h4, h5⟩ := hall n (Nat.lt_succ_self n)
      simp only [h1, h2, h3, h4, h5, ne_eq, not_true_eq_false, if_false]
      exact ih.mpr ⟨hb, fun i hi => hall i (Nat.lt_succ_of_lt hi)⟩

/-- The characterisation of `isCompatibleDnn` the claims about it rest on. -/
theorem isCompatibleDnn_eq_true (dnn1 dnn2 : AMIntelDNN α) :
    isCompatibleDnn dnn1 dnn2 = true ↔
    dnn1.num_components = dnn2.num_components ∧ ∀ i < dnn1.num_components,
      (dnn1.component i).num_rows_in = (dnn2.component i).num_rows_in ∧
      (dnn1.component i).num_columns_in = (dnn2.component i).num_columns_in ∧
      (dnn1.component i).num_rows_out = (dnn2.component i).num_rows_out ∧
      (dnn1.component i).num_columns_out = (dnn2.component i).num_columns_out ∧
      (dnn1.component i).operation = (dnn2.component i).operation := by
  unfold isCompatibleDnn
  rw [isCompatibleDnn_loop]
  by_cases hc : dnn1.num_components = dnn2.num_components <;> simp [hc]

/-- C7. `isCompatibleDnn` returns true if and only if the two models have the same number
of components and, at every index, equal `rows_in`, `cols_in`, `rows_out`,
`cols_out` and operation kind; it returns false whenever the component counts
differ, whichever model is longer; and its result is the same for any two
pairs of models that agree on the counts and on these five fields, so it
depends on no buffer, weight or byte width. -/
theorem isCompatibleDnn_iff (dnn1 dnn2 : AMIntelDNN α) :
    (isCompatibleDnn dnn1 dnn2 = true ↔
      dnn1.num_components = dnn2.num_components ∧ ∀ i < dnn1.num_components,
        (dnn1.component i).num_rows_in = (dnn2.component i).num_rows_in ∧
        (dnn1.component i).num_columns_in = (dnn2.component i).num_columns_in ∧
        (dnn1.component i).num_rows_out = (dnn2.component i).num_rows_out ∧
        (dnn1.component i).num_columns_out = (dnn2.component i).num_columns_out ∧
        (dnn1.component i).operation = (dnn2.component i).operation) ∧
    (dnn1.num_components < dnn2.num_components → isCompatibleDnn dnn1 dnn2 = false) ∧
    (dnn2.num_components < dnn1.num_components → isCompatibleDnn dnn1 dnn2 = false) ∧
    (∀ e1 e2 : AMIntelDNN α,
      e1.num_components = dnn1.num_components → e2.num_components = dnn2.num_components →
      (∀ i < dnn1.num_components,
        (e1.component i).num_rows_in = (dnn1.component i).num_rows_in ∧
        (e1.component i).num_columns_in = (dnn1.component i).num_columns_in ∧
        (e1.component i).num_rows_out = (dnn1.component i).num_rows_out ∧
        (e1.component i).num_columns_out = (dnn1.component i).num_columns_out ∧
        (e1.component i).operation = (dnn1.component i).operation) →
      (∀ i < dnn2.num_components,
        (e2.component i).num_rows_in = (dnn2.component i).num_rows_in ∧
        (e2.component i).num_columns_in = (dnn2.component i).num_columns_in ∧
        (e2.component i).num_rows_out = (dnn2.component i).num_rows_out ∧
        (e2.component i).num_columns_out = (dnn2.component i).num_columns_out ∧
        (e2.component i).operation = (dnn2.component i).operation) →
      isCompatibleDnn e1 e2 = isCompatibleDnn dnn1 dnn2) := by
  refine ⟨isCompatibleDnn_eq_true dnn1 dnn2, ?_, ?_, ?_⟩
  · intro hlt
    rw [← Bool.not_eq_true, isCompatibleDnn_eq_true]
    exact fun h => absurd h.1 (Nat.ne_of_lt hlt)
  · intro hlt
    rw [← Bool.not_eq_true, isCompatibleDnn_eq_true]
    exact fun h => absurd h.1.symm (Nat.ne_of_lt hlt)
  · intro e1 e2 hn1 hn2 hs1 hs2
    rw [Bool.eq_iff_iff, isCompatibleDnn_eq_true, isCompatibleDnn_eq_true, hn1, hn2]
    constructor
    · rintro ⟨hc, hall⟩
      refine ⟨hc, fun i hi => ?_⟩
      obtain ⟨a1, a2, a3, a4, a5⟩ := hall i hi
      obtain ⟨b1, b2, b3, b4, b5⟩ := hs1 i hi
      obtain ⟨c1, c2, c3, c4, c5⟩ := hs2 i (hc ▸ hi)
      exact ⟨b1.symm.trans (a1.trans c1), b2.symm.trans (a2.trans c2),
        b3.symm.trans (a3.trans c3), b4.symm.trans (a4.trans c4), b5.symm.trans (a5.trans c5)⟩
    · rintro ⟨hc, hall⟩
      refine ⟨hc, fun i hi => ?_⟩
      obtain ⟨a1, a2, a3, a4, a5⟩ := hall i hi
      obtain ⟨b1, b2, b3, b4, b5⟩ := hs1 i hi
      obtain ⟨c1, c2, c3, c4, c5⟩ := hs2 i (hc ▸ hi)
      exact ⟨b1.trans (a1.trans c1.symm), b2.trans (a2.trans c2.symm),
        b3.trans (a3.trans c3.symm), b4.trans (a4.trans c4.symm), b5.trans (a5.trans c5.symm)⟩

/-- C8. `isCompatibleDnn` is symmetric, `isCompatibleDnn(a, b) = isCompatibleDnn(b, a)` for
every two models although the loop runs over the component count of the first
argument only, and reflexive, `isCompatibleDnn(a, a)` is true for every `a`. -/
theorem isCompatibleDnn_symm_refl (a b : AMIntelDNN α) :
    isCompatibleDnn a b = isCompatibleDnn b a ∧ isCompatibleDnn a a = true := by
  refine ⟨?_, (isCompatibleDnn_eq_true a a).mpr ⟨rfl, fun i _ => ⟨rfl, rfl, rfl, rfl, rfl⟩⟩⟩
  rw [Bool.eq_iff_iff, isCompatibleDnn_eq_true, isCompatibleDnn_eq_true]
  constructor
  · rintro ⟨hc, hall⟩
    refine ⟨hc.symm, fun i hi => ?_⟩
    obtain ⟨a1, a2, a3, a4, a5⟩ := hall i (hc ▸ hi)
    exact ⟨a1.symm, a2.symm, a3.symm, a4.symm, a5.symm⟩
  · rintro ⟨hc, hall⟩
    refine ⟨hc.symm, fun i hi => ?_⟩
    obtain ⟨a1, a2, a3, a4, a5⟩ := hall i (hc ▸ hi)
    exact ⟨a1.symm, a2.symm, a3.symm, a4.symm, a5.symm⟩

end compat

/-- Witness of C7: two models of different component counts are incompatible whichever is
longer, and a model is compatible with one of the same shapes. -/
theorem isCompatibleDnn_iff_witness :
    isCompatibleDnn (exModel [(1, 2), (3, 4)]) (exModel [(1, 2)]) = false ∧
    isCompatibleDnn (exModel [(1, 2)]) (exModel [(1, 2), (3, 4)]) = false ∧
    isCompatibleDnn (exModel [(1, 2), (3, 4)]) (exModel [(1, 2), (3, 4)]) = true :=
  ⟨(isCompatibleDnn_iff (exModel [(1, 2), (3, 4)]) (exModel [(1, 2)])).2.2.1 (by decide),
    (isCompatibleDnn_iff (exModel [(1, 2)]) (exModel [(1, 2), (3, 4)])).2.1 (by decide),
    by decide⟩

/-- Witness of C8: the check gives the same answer in both orders on models of different
component counts. -/
theorem isCompatibleDnn_symm_refl_witness :
    isCompatibleDnn (exModel [(1, 2), (3, 4)]) (exModel [(1, 2)])
      = isCompatibleDnn (exModel [(1, 2)]) (exModel [(1, 2), (3, 4)]) ∧
    isCompatibleDnn (exModel [(1, 2), (3, 4)]) (exModel [(1, 2), (3, 4)]) = true :=
  isCompatibleDnn_symm_refl (exModel [(1, 2), (3, 4)]) (exModel [(1, 2)])

/-! ## Copy -/

section copy_claims
variable {α : Type}

/-- Storing a `uint32_t` value in an `int32_t` and converting it back gives the value. -/
theorem toUInt32_toInt32 (x : Nat) (h : x < 4294967296) : toUInt32 (toInt32 x) = x := by
  unfold toUInt32 toInt32
  split <;> omega

/-- The cells a successful `ApplyCopy` leaves, when the copied rows do not overlap in the
output and the offsets written and read fit 32 bits. -/
theorem ApplyCopy_cell (component : intel_dnn_component_t α)
    (hwidth : component.num_bytes_per_input = 4) (htype : component.IsUInt32)
    (hbound : component.op.copy.num_copy_rows ≤ component.num_rows_in)
    (hrows : RowsDisjoint component.op.copy.num_copy_rows component.op.copy.num_copy_columns
      component.num_columns_out)
    (hwrite : OffsetsFit component.op.copy.num_copy_rows component.op.copy.num_copy_columns
      component.num_columns_out)
    (hread : OffsetsFit component.op.copy.num_copy_rows component.op.copy.num_copy_columns
      component.num_columns_in)
    (row col : Nat) (hrow : row < component.op.copy.num_copy_rows)
    (hcol : col < component.op.copy.num_copy_columns) :
    (ApplyCopy component).output (row * component.num_columns_out + col)
      = component.ptr_inputs (row * component.num_columns_in + col) := by
  obtain ⟨_, h2, _, h4, h5, h6⟩ := htype
  have hw : ¬ (4 ≠ component.num_bytes_per_input) := fun h => h hwidth.symm
  have hb : ¬ (component.op.copy.num_copy_rows > component.num_rows_in) := Nat.not_lt.mpr hbound
  simp only [ApplyCopy, hw, if_false, toUInt32_toInt32 _ h2, toUInt32_toInt32 _ h4,
    toUInt32_toInt32 _ h5, toUInt32_toInt32 _ h6, hb]
  rw [← u32_of_lt (hread row hrow col hcol)]
  exact forLoop2_u32_hit
    (fun row col _ => component.ptr_inputs (u32 (row * component.num_columns_in + col)))
    component.op.copy.num_copy_rows component.op.copy.num_copy_columns
    component.num_columns_out component.ptr_outputs hrows hwrite row col hrow hcol

/-- The bound check of `ApplyCopy` on a descriptor of element width 4. -/
theorem ApplyCopy_error (component : intel_dnn_component_t α)
    (hwidth : component.num_bytes_per_input = 4) (htype : component.IsUInt32) :
    (ApplyCopy component).error
      = if component.op.copy.num_copy_rows > component.num_rows_in
        then some GnaError.CopyOutOfBounds else none := by
  obtain ⟨_, _, _, _, h5, _⟩ := htype
  have hw : ¬ (4 ≠ component.num_bytes_per_input) := fun h => h hwidth.symm
  simp only [ApplyCopy, hw, if_false, toUInt32_toInt32 _ h5]
  by_cases hb : component.op.copy.num_copy_rows > component.num_rows_in
  · simp [hb, throwBefore]
  · simp [hb]

/-- C9. Copy bound check: on a descriptor of element width 4 whose fields are `uint32_t`
values, `ApplyCopy` fails with `CopyOutOfBounds` if and only if
`num_copy_rows > num_rows_in` as unsigned values, although the code keeps
`num_copy_rows` in a signed 32-bit variable; otherwise it does not fail,
whatever `num_copy_columns` is. -/
theorem ApplyCopy_bound_check (component : intel_dnn_component_t α)
    (hwidth : component.num_bytes_per_input = 4) (htype : component.IsUInt32) :
    ((ApplyCopy component).error = some GnaError.CopyOutOfBounds ↔
      component.op.copy.num_copy_rows > component.num_rows_in) ∧
    (component.op.copy.num_copy_rows ≤ component.num_rows_in →
      (ApplyCopy component).error = none) := by
  rw [ApplyCopy_error component hwidth htype]
  by_cases hb : component.op.copy.num_copy_rows > component.num_rows_in
  · simp [hb]
  · simp [hb, Nat.not_lt.mp hb]

/-- C10, as amended. Copy: on a descriptor of element width 4 whose fields are `uint32_t`
values, with `num_copy_rows = rows_in`, `num_copy_columns = cols_in`,
`cols_out = cols_in` and at most `2^32` cells, `rows_in*cols_in <= 2^32`,
`ApplyCopy` succeeds and the output buffer equals the input buffer on all
`rows_in*cols_in` cells; in general, when `num_copy_rows <= rows_in`, the
copied rows do not overlap in the output and the offsets `row*cols_out + col`
and `row*cols_in + col` fit 32 bits,
`out[row*cols_out + col] = in[row*cols_in + col]` for every
`row < num_copy_rows`, `col < num_copy_columns`. -/
theorem ApplyCopy_copies (component : intel_dnn_component_t α)
    (hwidth : component.num_bytes_per_input = 4) (htype : component.IsUInt32) :
    (component.op.copy.num_copy_rows = component.num_rows_in →
      component.op.copy.num_copy_columns = component.num_columns_in →
      component.num_columns_out = component.num_columns_in →
      component.num_rows_in * component.num_columns_in ≤ 4294967296 →
      (ApplyCopy component).error = none ∧
      ∀ p < component.num_rows_in * component.num_columns_in,
        (ApplyCopy component).output p = component.ptr_inputs p) ∧
    (component.op.copy.num_copy_rows ≤ component.num_rows_in →
      RowsDisjoint component.op.copy.num_copy_rows component.op.copy.num_copy_columns
        component.num_columns_out →
      OffsetsFit component.op.copy.num_copy_rows component.op.copy.num_copy_columns
        component.num_columns_out →
      OffsetsFit component.op.copy.num_copy_rows component.op.copy.num_copy_columns
        component.num_columns_in →
      (ApplyCopy component).error = none ∧
      ∀ row < component.op.copy.num_copy_rows, ∀ col < component.op.copy.num_copy_columns,
        (ApplyCopy component).output (row * component.num_columns_out + col)
          = component.ptr_inputs (row * component.num_columns_in + col)) := by
  constructor
  · intro hm hn hs hsize
    refine ⟨by rw [ApplyCopy_error component hwidth htype,
      if_neg (Nat.not_lt.mpr (le_of_eq hm))], ?_⟩
    intro p hp
    have hpos : 0 < component.num_columns_in := by
      rcases Nat.eq_zero_or_pos component.num_columns_in with h0 | h0
      · rw [h0, Nat.mul_zero] at hp
        exact absurd hp (Nat.not_lt_zero _)
      · exact h0
    have hcol : p % component.num_columns_in < component.num_columns_in := Nat.mod_lt _ hpos
    have hrow : p / component.num_columns_in < component.num_rows_in :=
      (Nat.div_lt_iff_lt_mul hpos).mpr hp
    have hpe : p / component.num_columns_in * component.num_columns_in
        + p % component.num_columns_in = p := by
      rw [Nat.mul_comm]
      exact Nat.div_add_mod p component.num_columns_in
    have hfit : OffsetsFit component.op.copy.num_copy_rows component.op.copy.num_copy_columns
        component.num_columns_in := by
      rw [hm, hn]
      exact OffsetsFit.of_mul_le hsize
    have e := ApplyCopy_cell component hwidth htype (le_of_eq hm)
      (RowsDisjoint.of_le (le_of_eq (hn.trans hs.symm))) (by rw [hs]; exact hfit) hfit
      (p / component.num_columns_in) (p % component.num_columns_in) (hm ▸ hrow) (hn ▸ hcol)
    rw [hs, hpe] at e
    exact e
  · intro hb hrows hwrite hread
    exact ⟨by rw [ApplyCopy_error component hwidth htype, if_neg (Nat.not_lt.mpr hb)],
      fun row hrow col hcol =>
        ApplyCopy_cell component hwidth htype hb hrows hwrite hread row col hrow hcol⟩

end copy_claims

/-- Witness of C9: a request for `2 ^ 31` rows, which the signed local holds as
`-2 ^ 31`, of an input that has `2 ^ 31` rows is within bounds. -/
theorem ApplyCopy_bound_check_witness :
    exCopyLarge.num_bytes_per_input = 4 ∧ exCopyLarge.IsUInt32 ∧
    toInt32 exCopyLarge.op.copy.num_copy_rows = -2147483648 ∧
    ((ApplyCopy exCopyLarge).error = some GnaError.CopyOutOfBounds ↔
      exCopyLarge.op.copy.num_copy_rows > exCopyLarge.num_rows_in) ∧
    (exCopyLarge.op.copy.num_copy_rows ≤ exCopyLarge.num_rows_in →
      (ApplyCopy exCopyLarge).error = none) :=
  ⟨by decide, by decide, by decide, ApplyCopy_bound_check exCopyLarge (by decide) (by decide)⟩

/-- Witness of C10, as amended: the full copy of a 2 x 2 input. -/
theorem ApplyCopy_copies_witness :
    exCopyFull.num_bytes_per_input = 4 ∧ exCopyFull.IsUInt32 ∧
    (ApplyCopy exCopyFull).error = none ∧
    (∀ p < 2 * 2, (ApplyCopy exCopyFull).output p = exCopyFull.ptr_inputs p) ∧
    (∀ row < 2, ∀ col < 2,
      (ApplyCopy exCopyFull).output (row * 2 + col) = exCopyFull.ptr_inputs (row * 2 + col)) :=
  ⟨by decide, by decide,
    ((ApplyCopy_copies exCopyFull (by decide) (by decide)).1 rfl rfl rfl (by decide)).1,
    ((ApplyCopy_copies exCopyFull (by decide) (by decide)).1 rfl rfl rfl (by decide)).2,
    ((ApplyCopy_copies exCopyFull (by decide) (by decide)).2 (by decide) (by decide)
      (by decide) (by decide)).2⟩

/-- C10 as stated fails: `exCopyOverlap` has element width 4 and the call succeeds, but
with 2 columns copied into an output of stride 1 the cell `(0, 1)` is
overwritten by the cell `(1, 0)`: `out[0*1 + 1]` holds `in[1*2 + 0] = 12`
and not `in[0*2 + 1] = 11`. -/
theorem ApplyCopy_overlapping_rows :
    exCopyOverlap.num_bytes_per_input = 4 ∧ (ApplyCopy exCopyOverlap).error = none ∧
    ¬ (∀ row < exCopyOverlap.op.copy.num_copy_rows,
        ∀ col < exCopyOverlap.op.copy.num_copy_columns,
        (ApplyCopy exCopyOverlap).output (row * exCopyOverlap.num_columns_out + col)
          = exCopyOverlap.ptr_inputs (row * exCopyOverlap.num_columns_in + col)) ∧
    (ApplyCopy exCopyOverlap).output (0 * 1 + 1) = 12 ∧
    exCopyOverlap.ptr_inputs (0 * 2 + 1) = 11 := by
  refine ⟨by decide, by decide, ?_, by decide, by decide⟩
  intro h
  exact absurd (h 0 (by decide) 1 (by decide)) (by decide)

/-! ## Score error statistics -/

section score_error_claims
variable {α : Type} [LinearOrderedRing α]

/-- The merge field by field: counts and sums add, maxima take the larger value. -/
theorem UpdateScoreError_eq (error total_error : intel_score_error_t α) :
    UpdateScoreError error total_error =
      { num_scores := total_error.num_scores + error.num_scores
        num_errors := total_error.num_errors + error.num_errors
        max_error := max total_error.max_error error.max_error
        sum_error := total_error.sum_error + error.sum_error
        sum_squared_error := total_error.sum_squared_error + error.sum_squared_error
        max_rel_error := max total_error.max_rel_error error.max_rel_error
        sum_rel_error := total_error.sum_rel_error + error.sum_rel_error
        sum_squared_rel_error :=
          total_error.sum_squared_rel_error + error.sum_squared_rel_error } := by
  unfold UpdateScoreError
  by_cases h1 : error.max_error > total_error.max_error <;>
    by_cases h2 : error.max_rel_error > total_error.max_rel_error <;>
    simp [h1, h2, max_def, not_le.mpr, le_of_lt, not_lt.mp]

/-- C11. The merge of `UpdateScoreError` is commutative: for every two accumulator states
`a` and `b`, merging `a` into `b` and merging `b` into `a` give totals equal
on every field (the two counts, the four sums and sums of squares, the two
maxima). -/
theorem UpdateScoreError_comm (a b : intel_score_error_t α) :
    UpdateScoreError a b = UpdateScoreError b a ∧
    (UpdateScoreError a b).num_scores = (UpdateScoreError b a).num_scores ∧
    (UpdateScoreError a b).num_errors = (UpdateScoreError b a).num_errors ∧
    (UpdateScoreError a b).max_error = (UpdateScoreError b a).max_error ∧
    (UpdateScoreError a b).sum_error = (UpdateScoreError b a).sum_error ∧
    (UpdateScoreError a b).sum_squared_error = (UpdateScoreError b a).sum_squared_error ∧
    (UpdateScoreError a b).max_rel_error = (UpdateScoreError b a).max_rel_error ∧
    (UpdateScoreError a b).sum_rel_error = (UpdateScoreError b a).sum_rel_error ∧
    (UpdateScoreError a b).sum_squared_rel_error
      = (UpdateScoreError b a).sum_squared_rel_error := by
  have h : UpdateScoreError a b = UpdateScoreError b a := by
    rw [UpdateScoreError_eq, UpdateScoreError_eq]
    simp only [Nat.add_comm b.num_scores, Nat.add_comm b.num_errors, max_comm b.max_error,
      max_comm b.max_rel_error, add_comm b.sum_error, add_comm b.sum_squared_error,
      add_comm b.sum_rel_error, add_comm b.sum_squared_rel_error]
  exact ⟨h, by rw [h], by rw [h], by rw [h], by rw [h], by rw [h], by rw [h], by rw [h],
    by rw [h]⟩

/-- C12, as amended. Over exact ordered arithmetic (counts as integers, sums and maxima in
an ordered ring) the merge of `UpdateScoreError` is associative: for every
three accumulator states `a`, `b`, `c`, merging `a` into `b` and the result
into `c` gives the same total, on every field, as merging `a` into the result
of merging `b` into `c`. -/
theorem UpdateScoreError_assoc (a b c : intel_score_error_t α) :
    UpdateScoreError (UpdateScoreError a b) c = UpdateScoreError a (UpdateScoreError b c) := by
  simp only [UpdateScoreError_eq]
  simp only [Nat.add_comm b.num_scores, Nat.add_comm b.num_errors, max_comm b.max_error,
    max_comm b.max_rel_error, add_comm b.sum_error, add_comm b.sum_squared_error,
    add_comm b.sum_rel_error, add_comm b.sum_squared_rel_error, Nat.add_assoc, add_assoc,
    max_assoc]

/-- C13, as amended. `ClearScoreError` produces the identity of the merge on the states
whose two maxima are not negative: for every such state `t`, merging a cleared
accumulator into `t` leaves every field of `t` unchanged, and merging `t`
into a cleared accumulator yields a total equal to `t` on every field. -/
theorem ClearScoreError_identity (t x : intel_score_error_t α)
    (hmax : 0 ≤ t.max_error) (hrel : 0 ≤ t.max_rel_error) :
    UpdateScoreError (ClearScoreError x) t = t ∧ UpdateScoreError t (ClearScoreError x) = t := by
  constructor
  · rw [UpdateScoreError_eq]
    cases t
    simp only [ClearScoreError, Nat.add_zero, add_zero] at *
    simp [hmax, hrel]
  · rw [UpdateScoreError_eq]
    cases t
    simp only [ClearScoreError, Nat.zero_add, zero_add] at *
    simp [hmax, hrel]

end score_error_claims

/-- C12 as stated fails on the `float` sums of the code: with the absolute error sums 1, 1
and 16777216, merging `a` into `b` and the result into `c` gives
`16777216 + (1 + 1) = 16777218`, while merging `a` into the result of merging
`b` into `c` gives `(16777216 + 1) + 1 = 16777216`, each sum being rounded
to binary32. -/
theorem UpdateScoreError_float_grouping :
    (UpdateScoreError (UpdateScoreError (exFloatScore 1) (exFloatScore 1))
      (exFloatScore 16777216)).sum_error = ⟨16777218⟩ ∧
    (UpdateScoreError (exFloatScore 1)
      (UpdateScoreError (exFloatScore 1) (exFloatScore 16777216))).sum_error = ⟨16777216⟩ ∧
    UpdateScoreError (UpdateScoreError (exFloatScore 1) (exFloatScore 1)) (exFloatScore 16777216)
      ≠ UpdateScoreError (exFloatScore 1)
          (UpdateScoreError (exFloatScore 1) (exFloatScore 16777216)) := by
  refine ⟨by decide, by decide, fun h => ?_⟩
  exact absurd (congrArg (fun t => t.sum_error.val) h) (by decide)

/-- Witness of C13, as amended, on an accumulator with the maxima 3 and 1. -/
theorem ClearScoreError_identity_witness :
    0 ≤ exScore.max_error ∧ 0 ≤ exScore.max_rel_error ∧
    UpdateScoreError (ClearScoreError exScoreNegative) exScore = exScore ∧
    UpdateScoreError exScore (ClearScoreError exScoreNegative) = exScore :=
  ⟨by decide, by decide, ClearScoreError_identity exScore exScoreNegative (by decide) (by decide)⟩

/-- C13 as stated fails: on the state `exScoreNegative`, whose `max_error` is `-1`, merging
a cleared accumulator into it raises `max_error` to 0, and merging it into a
cleared accumulator gives a total whose `max_error` is 0: neither total
equals the state. -/
theorem ClearScoreError_negative_maximum :
    exScoreNegative.max_error = -1 ∧
    (UpdateScoreError (ClearScoreError exScore) exScoreNegative).max_error = 0 ∧
    (UpdateScoreError exScoreNegative (ClearScoreError exScore)).max_error = 0 ∧
    UpdateScoreError (ClearScoreError exScore) exScoreNegative ≠ exScoreNegative ∧
    UpdateScoreError exScoreNegative (ClearScoreError exScore) ≠ exScoreNegative := by
  refine ⟨by decide, by decide, by decide, ?_, ?_⟩
  · intro h
    exact absurd (congrArg intel_score_error_t.max_error h) (by decide)
  · intro h
    exact absurd (congrArg intel_score_error_t.max_error h) (by decide)

/-! ## Stable softmax -/

section softmax_lemmas
variable {α : Type} [LinearOrderedField α]

/-- The maximum search of `SoftmaxGoogle` started from `init`: the result is at least `init`
and at least every score visited, and it is `init` or one of these scores. -/
theorem maxLoop_spec (scores : Buf α) (n : Nat) (init : α) :
    init ≤ forLoop (fun i m => if scores i > m then scores i else m) n init ∧
    (∀ j < n, scores j ≤ forLoop (fun i m => if scores i > m then scores i else m) n init) ∧
    (forLoop (fun i m => if scores i > m then scores i else m) n init = init ∨
      ∃ j < n, scores j = forLoop (fun i m => if scores i > m then scores i else m) n init) := by
  induction n with
  | zero => exact ⟨le_refl _, fun j hj => absurd hj (Nat.not_lt_zero _), Or.inl rfl⟩
  | succ n ih =>
    obtain ⟨h1, h2, h3⟩ := ih
    simp only [forLoop]
    by_cases hgt : scores n > forLoop (fun i m => if scores i > m then scores i else m) n init
    · rw [if_pos hgt]
      refine ⟨le_trans h1 (le_of_lt hgt), ?_, Or.inr ⟨n, Nat.lt_succ_self n, rfl⟩⟩
      intro j hj
      rcases Nat.lt_succ_iff_lt_or_eq.mp hj with hlt | heq
      · exact le_trans (h2 j hlt) (le_of_lt hgt)
      · rw [heq]
    · rw [if_neg hgt]
      refine ⟨h1, ?_, ?_⟩
      · intro j hj
        rcases Nat.lt_succ_iff_lt_or_eq.mp hj with hlt | heq
        · exact h2 j hlt
        · rw [heq]
          exact not_lt.mp hgt
      · rcases h3 with h | ⟨j, hj, h⟩
        · exact Or.inl h
        · exact Or.inr ⟨j, Nat.lt_succ_of_lt hj, h⟩

/-- The maximum search of `SoftmaxGoogle` on a non-empty input finds the maximum. -/
theorem maxLoop_isMax (scores : Buf α) (n : Nat) (hn : 0 < n) :
    IsMaxScore scores n
      (forLoop (fun i m => if scores i > m then scores i else m) n (scores 0)) := by
  obtain ⟨_, h2, h3⟩ := maxLoop_spec scores n (scores 0)
  refine ⟨?_, h2⟩
  rcases h3 with h | h
  · exact ⟨0, hn, h.symm⟩
  · exact h

theorem IsMaxScore.unique {scores : Buf α} {n : Nat} {M M2 : α} (h : IsMaxScore scores n M)
    (h2 : IsMaxScore scores n M2) : M = M2 := by
  obtain ⟨⟨j, hj, e⟩, hle⟩ := h
  obtain ⟨⟨j2, hj2, e2⟩, hle2⟩ := h2
  exact le_antisymm (e ▸ hle2 j hj) (e2 ▸ hle j2 hj2)

/-- The output vector of `SoftmaxGoogle` on a non-empty input, in closed form. -/
theorem SoftmaxGoogle_output (exp log : α → α) (ptr_output ptr_input : Buf α)
    (num_outputs num_inputs : Nat) (hn : 0 < num_inputs) (M : α)
    (hM : IsMaxScore ptr_input num_inputs M) (i : Nat) (hi : i < num_outputs) :
    (SoftmaxGoogle exp log ptr_output ptr_input num_outputs num_inputs).output i
      = ptr_input i - (M + log
          (if ∑ j ∈ Finset.range num_inputs, exp (ptr_input j - M) < softmaxFloor
            then softmaxFloor else ∑ j ∈ Finset.range num_inputs, exp (ptr_input j - M))) := by
  have hMe := (maxLoop_isMax ptr_input num_inputs hn).unique hM
  have hsum : ∀ m : α, forLoop (fun i sum => sum + exp (ptr_input i - m)) num_inputs 0
      = ∑ j ∈ Finset.range num_inputs, exp (ptr_input j - m) :=
    fun m => sumTo_eq_sum num_inputs (fun j => exp (ptr_input j - m))
  simp only [SoftmaxGoogle, hMe, hsum]
  exact forLoop_cell_hit (fun i => i) (fun i _ => ptr_input i - (M + log
      (if ∑ j ∈ Finset.range num_inputs, exp (ptr_input j - M) < softmaxFloor
        then softmaxFloor else ∑ j ∈ Finset.range num_inputs, exp (ptr_input j - M))))
    num_outputs ptr_output i i hi rfl (fun t _ e => e)

theorem SoftmaxGoogle_warning (exp log : α → α) (ptr_output ptr_input : Buf α)
    (num_outputs num_inputs : Nat) (hn : 0 < num_inputs) (M : α)
    (hM : IsMaxScore ptr_input num_inputs M) :
    (SoftmaxGoogle exp log ptr_output ptr_input num_outputs num_inputs).warning
      = decide (∑ j ∈ Finset.range num_inputs, exp (ptr_input j - M) < softmaxFloor) := by
  have hMe := (maxLoop_isMax ptr_input num_inputs hn).unique hM
  have hsum : ∀ m : α, forLoop (fun i sum => sum + exp (ptr_input i - m)) num_inputs 0
      = ∑ j ∈ Finset.range num_inputs, exp (ptr_input j - m) :=
    fun m => sumTo_eq_sum num_inputs (fun j => exp (ptr_input j - m))
  simp only [SoftmaxGoogle, hMe, hsum]

/-- C14. Softmax formula: for every non-empty input of length `num_inputs` and every
`num_outputs <= num_inputs`, the inputs have a maximum `M`, and with
`S = sum over j < num_inputs of exp(input[j] - M)`, replaced by `1e-20` when
`S < 1e-20`, `SoftmaxGoogle` writes `output[i] = input[i] - (M + log(S))` for
every `i < num_outputs`.  It holds in every ordered field and for any
functions `exp`, `log`, in particular over the reals. -/
theorem SoftmaxGoogle_formula (exp log : α → α) (ptr_output ptr_input : Buf α)
    (num_outputs num_inputs : Nat) (hn : 0 < num_inputs) (_hno : num_outputs ≤ num_inputs) :
    (∃ M, IsMaxScore ptr_input num_inputs M) ∧
    ∀ M, IsMaxScore ptr_input num_inputs M → ∀ i < num_outputs,
      (SoftmaxGoogle exp log ptr_output ptr_input num_outputs num_inputs).output i
        = ptr_input i - (M + log
            (if ∑ j ∈ Finset.range num_inputs, exp (ptr_input j - M) < softmaxFloor
              then softmaxFloor
              else ∑ j ∈ Finset.range num_inputs, exp (ptr_input j - M))) :=
  ⟨⟨_, maxLoop_isMax ptr_input num_inputs hn⟩,
    fun M hM i hi =>
      SoftmaxGoogle_output exp log ptr_output ptr_input num_outputs num_inputs hn M hM i hi⟩

end softmax_lemmas

section softmax_real

/-- Bounds on the sum of exponentials over the reals: the maximal score contributes
`exp 0 = 1`, and no term exceeds 1. -/
theorem softmax_sum_bounds (ptr_input : Buf ℝ) (num_inputs : Nat) (M : ℝ)
    (hM : IsMaxScore ptr_input num_inputs M) :
    1 ≤ ∑ j ∈ Finset.range num_inputs, Real.exp (ptr_input j - M) ∧
    ∑ j ∈ Finset.range num_inputs, Real.exp (ptr_input j - M) ≤ num_inputs := by
  obtain ⟨⟨j0, hj0, e0⟩, hle⟩ := hM
  constructor
  · have h1 : Real.exp (ptr_input j0 - M) = 1 := by rw [e0, sub_self, Real.exp_zero]
    rw [← h1]
    exact Finset.single_le_sum (f := fun j => Real.exp (ptr_input j - M))
      (fun j _ => le_of_lt (Real.exp_pos _)) (Finset.mem_range.mpr hj0)
  · have h2 : ∀ j ∈ Finset.range num_inputs, Real.exp (ptr_input j - M) ≤ 1 := by
      intro j hj
      rw [← Real.exp_zero]
      exact Real.exp_le_exp.mpr (sub_nonpos.mpr (hle j (Finset.mem_range.mp hj)))
    calc ∑ j ∈ Finset.range num_inputs, Real.exp (ptr_input j - M)
        ≤ ∑ _j ∈ Finset.range num_inputs, (1 : ℝ) := Finset.sum_le_sum h2
      _ = num_inputs := by simp

theorem softmaxFloor_lt_one : (softmaxFloor : ℝ) < 1 := by
  unfold softmaxFloor
  norm_num

/-- The output vector of `SoftmaxGoogle` over the reals: the clamp is not taken. -/
theorem SoftmaxGoogle_output_real (ptr_output ptr_input : Buf ℝ) (num_outputs num_inputs : Nat)
    (hn : 0 < num_inputs) (M : ℝ) (hM : IsMaxScore ptr_input num_inputs M) (i : Nat)
    (hi : i < num_outputs) :
    (SoftmaxGoogle Real.exp Real.log ptr_output ptr_input num_outputs num_inputs).output i
      = ptr_input i
        - (M + Real.log (∑ j ∈ Finset.range num_inputs, Real.exp (ptr_input j - M))) := by
  rw [SoftmaxGoogle_output Real.exp Real.log ptr_output ptr_input num_outputs num_inputs hn M hM
    i hi, if_neg]
  exact not_lt.mpr (le_trans (le_of_lt softmaxFloor_lt_one)
    (softmax_sum_bounds ptr_input num_inputs M hM).1)

/-- The exponential of an output of `SoftmaxGoogle` over the reals. -/
theorem SoftmaxGoogle_exp_output (ptr_output ptr_input : Buf ℝ) (num_outputs num_inputs : Nat)
    (hn : 0 < num_inputs) (M : ℝ) (hM : IsMaxScore ptr_input num_inputs M) (i : Nat)
    (hi : i < num_outputs) :
    Real.exp ((SoftmaxGoogle Real.exp Real.log ptr_output ptr_input num_outputs
        num_inputs).output i)
      = Real.exp (ptr_input i - M)
        / ∑ j ∈ Finset.range num_inputs, Real.exp (ptr_input j - M) := by
  have hpos : 0 < ∑ j ∈ Finset.range num_inputs, Real.exp (ptr_input j - M) :=
    lt_of_lt_of_le one_pos (softmax_sum_bounds ptr_input num_inputs M hM).1
  rw [SoftmaxGoogle_output_real ptr_output ptr_input num_outputs num_inputs hn M hM i hi,
    ← sub_sub, Real.exp_sub, Real.exp_log hpos]

/-- C15, as amended. Softmax normalisation over the reals: for every non-empty input and
every `num_outputs <= num_inputs`, the sum over `i < num_outputs` of
`exp(output[i])` is at most 1, and it is exactly 1 when
`num_outputs = num_inputs`. -/
theorem SoftmaxGoogle_normalised (ptr_output ptr_input : Buf ℝ) (num_outputs num_inputs : Nat)
    (hn : 0 < num_inputs) (hno : num_outputs ≤ num_inputs) :
    ∑ i ∈ Finset.range num_outputs,
        Real.exp ((SoftmaxGoogle Real.exp Real.log ptr_output ptr_input num_outputs
          num_inputs).output i) ≤ 1 ∧
    (num_outputs = num_inputs →
      ∑ i ∈ Finset.range num_outputs,
        Real.exp ((SoftmaxGoogle Real.exp Real.log ptr_output ptr_input num_outputs
          num_inputs).output i) = 1) := by
  have hM := maxLoop_isMax ptr_input num_inputs hn
  generalize forLoop (fun i m => if ptr_input i > m then ptr_input i else m) num_inputs
    (ptr_input 0) = M at hM
  have hpos : 0 < ∑ j ∈ Finset.range num_inputs, Real.exp (ptr_input j - M) :=
    lt_of_lt_of_le one_pos (softmax_sum_bounds ptr_input num_inputs M hM).1
  have hsum : ∑ i ∈ Finset.range num_outputs,
      Real.exp ((SoftmaxGoogle Real.exp Real.log ptr_output ptr_input num_outputs
        num_inputs).output i)
      = (∑ i ∈ Finset.range num_outputs, Real.exp (ptr_input i - M))
        / ∑ j ∈ Finset.range num_inputs, Real.exp (ptr_input j - M) := by
    rw [Finset.sum_div]
    exact Finset.sum_congr rfl (fun i hi =>
      SoftmaxGoogle_exp_output ptr_output ptr_input num_outputs num_inputs hn M hM i
        (Finset.mem_range.mp hi))
  rw [hsum]
  constructor
  · rw [div_le_one hpos]
    exact Finset.sum_le_sum_of_subset_of_nonneg
      (Finset.range_subset.mpr hno) (fun j _ _ => le_of_lt (Real.exp_pos _))
  · intro he
    rw [he]
    exact div_self (ne_of_gt hpos)

/-- Witness of C15, as amended: two equal scores, both written. -/
theorem SoftmaxGoogle_normalised_witness :
    ∑ i ∈ Finset.range 2,
        Real.exp ((SoftmaxGoogle Real.exp Real.log (fun _ => 0) (fun _ => 0) 2 2).output i) ≤ 1 ∧
    ∑ i ∈ Finset.range 2,
        Real.exp ((SoftmaxGoogle Real.exp Real.log (fun _ => 0) (fun _ => 0) 2 2).output i) = 1 :=
  ⟨(SoftmaxGoogle_normalised (fun _ => 0) (fun _ => 0) 2 2 (by decide) (by decide)).1,
    (SoftmaxGoogle_normalised (fun _ => 0) (fun _ => 0) 2 2 (by decide) (by decide)).2 rfl⟩

/-- C15 as stated fails: of two equal scores with one output written, `num_inputs = 2` and
`num_outputs = 1`, the output is `-log 2` and the sum of `exp(output[i])`
over `i < num_outputs` is `1/2`, not 1. -/
theorem SoftmaxGoogle_prefix_sum_below_one :
    ∑ i ∈ Finset.range 1,
        Real.exp ((SoftmaxGoogle Real.exp Real.log (fun _ => 0) (fun _ => 0) 1 2).output i)
      = 1 / 2 ∧
    ∑ i ∈ Finset.range 1,
        Real.exp ((SoftmaxGoogle Real.exp Real.log (fun _ => 0) (fun _ => 0) 1 2).output i)
      ≠ 1 := by
  have hM : IsMaxScore (fun _ => (0 : ℝ)) 2 0 :=
    ⟨⟨0, by decide, rfl⟩, fun _ _ => le_refl _⟩
  have h : ∑ i ∈ Finset.range 1,
      Real.exp ((SoftmaxGoogle Real.exp Real.log (fun _ => 0) (fun _ => 0) 1 2).output i)
      = 1 / 2 := by
    rw [Finset.sum_range_one,
      SoftmaxGoogle_exp_output (fun _ => 0) (fun _ => 0) 1 2 (by decide) 0 hM 0 (by decide)]
    norm_num [Finset.sum_range_succ]
  exact ⟨h, by rw [h]; norm_num⟩

/-- Exact arithmetic only, not the binary32 arithmetic of the code: over the reals, for
every non-empty input the sum
`S = sum over j of exp(input[j] - max)` satisfies `1 <= S` (and
`S <= num_inputs`), the maximal element contributing `exp(0) = 1`; the clamp
branch is not taken, no warning is printed, `log` is applied to `S` itself,
and every output lies between `input[i] - max - log(num_inputs)` and
`input[i] - max`. -/
theorem SoftmaxGoogle_sum_at_least_one (ptr_output ptr_input : Buf ℝ)
    (num_outputs num_inputs : Nat) (hn : 0 < num_inputs) (M : ℝ)
    (hM : IsMaxScore ptr_input num_inputs M) :
    1 ≤ ∑ j ∈ Finset.range num_inputs, Real.exp (ptr_input j - M) ∧
    ¬ (∑ j ∈ Finset.range num_inputs, Real.exp (ptr_input j - M) < softmaxFloor) ∧
    (SoftmaxGoogle Real.exp Real.log ptr_output ptr_input num_outputs num_inputs).warning
      = false ∧
    ∀ i < num_outputs,
      (SoftmaxGoogle Real.exp Real.log ptr_output ptr_input num_outputs num_inputs).output i
        = ptr_input i
          - (M + Real.log (∑ j ∈ Finset.range num_inputs, Real.exp (ptr_input j - M))) ∧
      ptr_input i - M - Real.log num_inputs
        ≤ (SoftmaxGoogle Real.exp Real.log ptr_output ptr_input num_outputs num_inputs).output i ∧
      (SoftmaxGoogle Real.exp Real.log ptr_output ptr_input num_outputs num_inputs).output i
        ≤ ptr_input i - M := by
  obtain ⟨h1, h2⟩ := softmax_sum_bounds ptr_input num_inputs M hM
  have hfloor : ¬ (∑ j ∈ Finset.range num_inputs, Real.exp (ptr_input j - M) < softmaxFloor) :=
    not_lt.mpr (le_trans (le_of_lt softmaxFloor_lt_one) h1)
  refine ⟨h1, hfloor, ?_, ?_⟩
  · rw [SoftmaxGoogle_warning Real.exp Real.log ptr_output ptr_input num_outputs num_inputs hn M
      hM]
    exact decide_eq_false hfloor
  · intro i hi
    have hpos : 0 < ∑ j ∈ Finset.range num_inputs, Real.exp (ptr_input j - M) :=
      lt_of_lt_of_le one_pos h1
    have hlog0 : 0 ≤ Real.log (∑ j ∈ Finset.range num_inputs, Real.exp (ptr_input j - M)) :=
      Real.log_nonneg h1
    have hlogn : Real.log (∑ j ∈ Finset.range num_inputs, Real.exp (ptr_input j - M))
        ≤ Real.log num_inputs := Real.log_le_log hpos h2
    rw [SoftmaxGoogle_output_real ptr_output ptr_input num_outputs num_inputs hn M hM i hi]
    refine ⟨rfl, ?_, ?_⟩ <;> linarith

end softmax_real

/-- Witness of C14 over the reals: a single score 0, whose maximum is 0. -/
theorem SoftmaxGoogle_formula_witness :
    (SoftmaxGoogle Real.exp Real.log (fun _ => 0) (fun _ => 0) 1 1).output 0
      = (0 : ℝ) - (0 + Real.log
          (if ∑ _j ∈ Finset.range 1, Real.exp ((0 : ℝ) - 0) < softmaxFloor then softmaxFloor
            else ∑ _j ∈ Finset.range 1, Real.exp ((0 : ℝ) - 0))) :=
  (SoftmaxGoogle_formula Real.exp Real.log (fun _ => 0) (fun _ => 0) 1 1 (by decide)
    (by decide)).2 0 ⟨⟨0, by decide, rfl⟩, fun _ _ => le_refl _⟩ 0 (by decide)

/-! ## The recurrent step -/

section recurrent_claims
variable {α : Type} [CommSemiring α]

/-- An accumulation loop started at `init` adds the sum of its terms to `init`. -/
theorem forLoop_add_eq_sum (f : Nat → α) (n : Nat) (init : α) :
    forLoop (fun j sum => sum + f j) n init = init + ∑ j ∈ Finset.range n, f j := by
  induction n with
  | zero => simp [forLoop]
  | succ n ih => simp only [forLoop, ih, Finset.sum_range_succ, add_assoc]

/-- The cells `sgemv_split` writes. -/
theorem sgemv_split_cell (N K1 K2 : Nat) (A1 : Buf α) (A10 : Nat) (A2 X B C : Buf α) (C0 : Nat)
    (o : Nat) (ho : o < N) :
    sgemv_split N K1 K2 A1 A10 A2 X B C C0 (C0 + o)
      = B o + ∑ t ∈ Finset.range (K1 + K2),
          X (o * (K1 + K2) + t) * concatInputFeedback (fun t => A1 (A10 + t)) A2 K1 t := by
  have h := forLoop_cell_hit (fun i => C0 + i)
    (fun i _ => forLoop (fun j sum => sum + A2 j * X (i * (K1 + K2) + (K1 + j))) K2
      (forLoop (fun j sum => sum + A1 (A10 + j) * X (i * (K1 + K2) + j)) K1 (B i)))
    N C (C0 + o) o ho rfl (fun t _ e => Nat.add_left_cancel e)
  refine Eq.trans h ?_
  beta_reduce
  rw [forLoop_add_eq_sum, forLoop_add_eq_sum, Finset.sum_range_add, add_assoc]
  congr 2
  · apply Finset.sum_congr rfl
    intro t ht
    simp only [concatInputFeedback, if_pos (Finset.mem_range.mp ht)]
    exact mul_comm _ _
  · apply Finset.sum_congr rfl
    intro t _
    simp only [concatInputFeedback, if_neg (Nat.not_lt.mpr (Nat.le_add_right K1 t)),
      Nat.add_sub_cancel_left]
    exact mul_comm _ _

/-- The cells `sgemv_split` leaves alone. -/
theorem sgemv_split_frame (N K1 K2 : Nat) (A1 : Buf α) (A10 : Nat) (A2 X B C : Buf α) (C0 : Nat)
    (p : Nat) (hp : p < C0 ∨ C0 + N ≤ p) :
    sgemv_split N K1 K2 A1 A10 A2 X B C C0 p = C p :=
  forLoop_cell_frame (fun i => C0 + i)
    (fun i _ => forLoop (fun j sum => sum + A2 j * X (i * (K1 + K2) + (K1 + j))) K2
      (forLoop (fun j sum => sum + A1 (A10 + j) * X (i * (K1 + K2) + j)) K1 (B i)))
    N C p (fun t ht e => by
      have e2 : C0 + t = p := e
      omega)

/-- The recurrent step when the descriptor stores a feedback pointer and the two row
offsets fit 32 bits: the `k2 = cols_out` cells of row `row` hold
`bias[o] + sum over t < k1+k2 of W[o][t]*v[t]`, with `v` the input row followed
by the feedback values, and the other output cells are unchanged. -/
theorem ApplyRecurrentTransform_cells (component : intel_dnn_component_t α) (row : Nat)
    (feedback : Buf α) (hwidth : component.num_bytes_per_input = 4)
    (hstored : component.op.recurrent.ptr_feedbacks.isSome = true)
    (hin : row * component.num_columns_in < 4294967296)
    (hout : row * component.num_columns_out < 4294967296) :
    (ApplyRecurrentTransform component row (some feedback)).error = none ∧
    (∀ o < component.num_columns_out,
      (ApplyRecurrentTransform component row (some feedback)).output
          (row * component.num_columns_out + o)
        = component.op.recurrent.ptr_biases o
          + ∑ t ∈ Finset.range (component.num_columns_in + component.num_columns_out),
              component.op.recurrent.ptr_weights
                  (o * (component.num_columns_in + component.num_columns_out) + t)
                * concatInputFeedback
                    (fun t => component.ptr_inputs (row * component.num_columns_in + t))
                    feedback component.num_columns_in t) ∧
    (∀ p, p < row * component.num_columns_out ∨
        row * component.num_columns_out + component.num_columns_out ≤ p →
      (ApplyRecurrentTransform component row (some feedback)).output p
        = component.ptr_outputs p) := by
  have hw : ¬ (4 ≠ component.num_bytes_per_input) := fun h => h hwidth.symm
  have hs : component.op.recurrent.ptr_feedbacks.isNone = false := by
    rw [Option.isNone_eq_false_iff]
    exact Option.isSome_iff_ne_none.mp hstored |> Option.ne_none_iff_isSome.mp
  refine ⟨by simp [ApplyRecurrentTransform, hw, hs], ?_, ?_⟩
  · intro o ho
    simp only [ApplyRecurrentTransform, hw, hs, if_false, derefFloat, u32_of_lt hin,
      u32_of_lt hout]
    exact sgemv_split_cell _ _ _ _ _ _ _ _ _ _ o ho
  · intro p hp
    simp only [ApplyRecurrentTransform, hw, hs, if_false, derefFloat, u32_of_lt hin,
      u32_of_lt hout]
    exact sgemv_split_frame _ _ _ _ _ _ _ _ _ _ p hp

end recurrent_claims

/-- C16 (the code departs from it). On `exRecurrentNoStored` (element width 4, one input
column of value 5, weights `[1, 1]`, zero bias) with the feedback buffer `[7]`
supplied as argument, the claim gives the output `0 + 1*5 + 1*7 = 12` at row
0; the call fails with `MissingFeedback`, invokes no primitive and leaves the
cell at 0, because the guard tests the pointer stored in the descriptor,
which is null, and not the argument. -/
theorem ApplyRecurrentTransform_supplied_feedback_rejected :
    exRecurrentNoStored.num_bytes_per_input = 4 ∧
    (ApplyRecurrentTransform exRecurrentNoStored 0 (some (Buf.ofList [7]))).error
      = some GnaError.MissingFeedback ∧
    (ApplyRecurrentTransform exRecurrentNoStored 0 (some (Buf.ofList [7]))).calls = [] ∧
    (ApplyRecurrentTransform exRecurrentNoStored 0 (some (Buf.ofList [7]))).output
      (0 * exRecurrentNoStored.num_columns_out + 0) = 0 ∧
    exRecurrentNoStored.op.recurrent.ptr_biases 0
      + ∑ t ∈ Finset.range
            (exRecurrentNoStored.num_columns_in + exRecurrentNoStored.num_columns_out),
          exRecurrentNoStored.op.recurrent.ptr_weights
              (0 * (exRecurrentNoStored.num_columns_in + exRecurrentNoStored.num_columns_out) + t)
            * concatInputFeedback
                (fun t => exRecurrentNoStored.ptr_inputs
                  (0 * exRecurrentNoStored.num_columns_in + t))
                (Buf.ofList [7]) exRecurrentNoStored.num_columns_in t = 12 := by
  decide

section affine_all_rows
variable {α : Type} [Semiring α]

end affine_all_rows

section pwl_claims
variable {α : Type}

/-- C18. Both entry points of `ApplyPiecewiseLinearTransform` fail with
`UnsupportedNumericType` if and only if `number_type` is not `kDnnFloat`.
Otherwise the list entry point delegates to the primitive over `listsize`, and
the single-row entry point delegates with the row range `[num_row, num_row]`
and the columns `0` to `listsize - 1`; `listsize - 1` is the 32-bit unsigned
difference, `4294967295` for `listsize = 0`. -/
theorem ApplyPiecewiseLinearTransform_number_type
    (PwlApply32 : intel_dnn_component_t α → Nat → Buf α)
    (PwlApply32Range : intel_dnn_component_t α → Nat → Nat → Nat → Nat → Buf α)
    (component : intel_dnn_component_t α) (number_type : intel_dnn_number_type_t)
    (listsize num_row : Nat) :
    ((ApplyPiecewiseLinearTransform PwlApply32 component number_type listsize).error
        = some GnaError.UnsupportedNumericType ↔
      number_type ≠ intel_dnn_number_type_t.kDnnFloat) ∧
    ((ApplyPiecewiseLinearTransformRow PwlApply32Range component number_type listsize
        num_row).error = some GnaError.UnsupportedNumericType ↔
      number_type ≠ intel_dnn_number_type_t.kDnnFloat) ∧
    (number_type = intel_dnn_number_type_t.kDnnFloat →
      ApplyPiecewiseLinearTransform PwlApply32 component number_type listsize
        = { error := none, output := PwlApply32 component listsize,
            calls := [Primitive.PwlApply32] }) ∧
    (number_type = intel_dnn_number_type_t.kDnnFloat → 1 ≤ listsize → listsize < 4294967296 →
      ApplyPiecewiseLinearTransformRow PwlApply32Range component number_type listsize num_row
        = { error := none, output := PwlApply32Range component num_row num_row 0 (listsize - 1),
            calls := [Primitive.PwlApply32] }) ∧
    (number_type = intel_dnn_number_type_t.kDnnFloat → listsize = 0 →
      ApplyPiecewiseLinearTransformRow PwlApply32Range component number_type listsize num_row
        = { error := none, output := PwlApply32Range component num_row num_row 0 4294967295,
            calls := [Primitive.PwlApply32] }) := by
  refine ⟨?_, ?_, ?_, ?_, ?_⟩
  · cases number_type <;> simp [ApplyPiecewiseLinearTransform, throwBefore]
  · cases number_type <;> simp [ApplyPiecewiseLinearTransformRow, throwBefore]
  · intro h
    subst h
    simp [ApplyPiecewiseLinearTransform]
  · intro h h1 h2
    subst h
    have e : (listsize + 4294967296 - 1) % 4294967296 = listsize - 1 := by omega
    simp only [ApplyPiecewiseLinearTransformRow, e]
    simp
  · intro h h0
    subst h
    subst h0
    simp [ApplyPiecewiseLinearTransformRow]

end pwl_claims

/-- Witness of C18: the single-row entry point on row 1 with `listsize = 2` reaches the
primitive with the rows `[1, 1]` and the columns `[0, 1]`. -/
theorem ApplyPiecewiseLinearTransform_number_type_witness :
    (ApplyPiecewiseLinearTransformRow pwlRangeStub exAffine
        intel_dnn_number_type_t.kDnnFloat 2 1).output
      = pwlRangeStub exAffine 1 1 0 1 ∧
    (ApplyPiecewiseLinearTransformRow pwlRangeStub exAffine
        intel_dnn_number_type_t.kDnnInt 2 1).error = some GnaError.UnsupportedNumericType :=
  ⟨congrArg Outcome.output
      ((ApplyPiecewiseLinearTransform_number_type pwlStub pwlRangeStub exAffine
        intel_dnn_number_type_t.kDnnFloat 2 1).2.2.2.1 rfl (by decide) (by decide)),
    (ApplyPiecewiseLinearTransform_number_type pwlStub pwlRangeStub exAffine
      intel_dnn_number_type_t.kDnnInt 2 1).2.1.mpr (by decide)⟩

/-! ## Accesses of the compatibility check -/

section compat_reads
variable {α : Type}

/-- The traced loop computes the flag of `isCompatibleDnn` and reads the second model at
every index below the bound, five times each. -/
theorem isCompatibleDnnTraced_loop (dnn1 dnn2 : AMIntelDNN α) (n : Nat) (b : Bool) :
    (forLoop (fun i (s : Bool × List Nat) =>
      let s : Bool × List Nat :=
        (if (dnn1.component i).num_rows_in ≠ (dnn2.component i).num_rows_in then false else s.1,
          s.2 ++ [i])
      let s : Bool × List Nat :=
        (if (dnn1.component i).num_columns_in ≠ (dnn2.component i).num_columns_in then false
          else s.1, s.2 ++ [i])
      let s : Bool × List Nat :=
        (if (dnn1.component i).num_rows_out ≠ (dnn2.component i).num_rows_out then false
          else s.1, s.2 ++ [i])
      let s : Bool × List Nat :=
        (if (dnn1.component i).num_columns_out ≠ (dnn2.component i).num_columns_out then false
          else s.1, s.2 ++ [i])
      let s : Bool × List Nat :=
        (if (dnn1.component i).operation ≠ (dnn2.component i).operation then false else s.1,
          s.2 ++ [i])
      s) n (b, [])).1
      = forLoop (fun i isCompatible =>
        let isCompatible :=
          if (dnn1.component i).num_rows_in ≠ (dnn2.component i).num_rows_in then false
          else isCompatible
        let isCompatible :=
          if (dnn1.component i).num_columns_in ≠ (dnn2.component i).num_columns_in then false
          else isCompatible
        let isCompatible :=
          if (dnn1.component i).num_rows_out ≠ (dnn2.component i).num_rows_out then false
          else isCompatible
        let isCompatible :=
          if (dnn1.component i).num_columns_out ≠ (dnn2.component i).num_columns_out then false
          else isCompatible
        let isCompatible :=
          if (dnn1.component i).operation ≠ (dnn2.component i).operation then false
          else isCompatible
        isCompatible) n b ∧
    ∀ i, i ∈ (forLoop (fun i (s : Bool × List Nat) =>
      let s : Bool × List Nat :=
        (if (dnn1.component i).num_rows_in ≠ (dnn2.component i).num_rows_in then false else s.1,
          s.2 ++ [i])
      let s : Bool × List Nat :=
        (if (dnn1.component i).num_columns_in ≠ (dnn2.component i).num_columns_in then false
          else s.1, s.2 ++ [i])
      let s : Bool × List Nat :=
        (if (dnn1.component i).num_rows_out ≠ (dnn2.component i).num_rows_out then false
          else s.1, s.2 ++ [i])
      let s : Bool × List Nat :=
        (if (dnn1.component i).num_columns_out ≠ (dnn2.component i).num_columns_out then false
          else s.1, s.2 ++ [i])
      let s : Bool × List Nat :=
        (if (dnn1.component i).operation ≠ (dnn2.component i).operation then false else s.1,
          s.2 ++ [i])
      s) n (b, [])).2 ↔ i < n := by
  induction n with
  | zero => simp [forLoop]
  | succ n ih =>
    obtain ⟨ih1, ih2⟩ := ih
    simp only [forLoop]
    refine ⟨by rw [ih1], fun i => ?_⟩
    simp only [List.mem_append, List.mem_singleton, ih2 i]
    omega

/-- The traced check returns the flag of `isCompatibleDnn` and reads `dnn2.component[i]`
exactly at the indices below the component count of the first model. -/
theorem isCompatibleDnnTraced_spec (dnn1 dnn2 : AMIntelDNN α) :
    (isCompatibleDnnTraced dnn1 dnn2).1 = isCompatibleDnn dnn1 dnn2 ∧
    ∀ i, i ∈ (isCompatibleDnnTraced dnn1 dnn2).2 ↔ i < dnn1.num_components :=
  isCompatibleDnnTraced_loop dnn1 dnn2 dnn1.num_components _

end compat_reads

/-- C20 (the code departs from it). With two components in the first model and one in the
second, the check returns false, yet its loop has evaluated
`dnn2.component[1]`, an index at the component count of the second model: the
count mismatch clears the flag without leaving the function. -/
theorem isCompatibleDnn_reads_past_second_model :
    (exModel [(1, 2), (3, 4)]).num_components = 2 ∧ (exModel [(1, 2)]).num_components = 1 ∧
    isCompatibleDnn (exModel [(1, 2), (3, 4)]) (exModel [(1, 2)]) = false ∧
    (isCompatibleDnnTraced (exModel [(1, 2), (3, 4)]) (exModel [(1, 2)])).1 = false ∧
    (isCompatibleDnnTraced (exModel [(1, 2), (3, 4)]) (exModel [(1, 2)])).2
      = [0, 0, 0, 0, 0, 1, 1, 1, 1, 1] ∧
    ∃ i ∈ (isCompatibleDnnTraced (exModel [(1, 2), (3, 4)]) (exModel [(1, 2)])).2,
      (exModel [(1, 2)]).num_components ≤ i := by
  refine ⟨by decide, by decide, by decide, by decide, by decide, 1, by decide, by decide⟩

end GNAPluginNS.backend
